import Mathlib

/-!
Formal model of the lecture.js interactive-video engine (repository
esneider/interactive-video).  The definitions below are shallow embeddings
of the JavaScript source in src/lecture.js (current revision) and, where a
claim compares revisions, of the earlier revision in src/unnamed/part_000.
JavaScript numbers are modeled as exact rationals together with an explicit
NaN value; double-precision arithmetic is exact on the integer-second
values the claims quantify over.
-/

namespace LectureJs

/-- JavaScript number: either NaN or an exact rational value.  The source
stores times and cue boundaries in JavaScript numbers, and NaN arises from
parseFloat on digit-less strings, so it must be represented explicitly. -/
inductive JsNum where
  | nan : JsNum
  | num (q : ℚ) : JsNum
  deriving DecidableEq

/-- JavaScript strict equality on numbers: NaN is not equal to anything,
including itself. -/
def jsEqb : JsNum → JsNum → Bool
  | JsNum.num a, JsNum.num b => a == b
  | _, _ => false

/-- JavaScript addition on numbers: NaN is absorbing. -/
def jsAdd : JsNum → JsNum → JsNum
  | JsNum.num a, JsNum.num b => JsNum.num (a + b)
  | _, _ => JsNum.nan

/-- JavaScript truthiness of a number: 0 and NaN are falsy. -/
def jsTruthy : JsNum → Bool
  | JsNum.num q => q != 0
  | JsNum.nan => false

/-- Numeric value of a decimal digit character. -/
def digitVal (c : Char) : ℕ := c.toNat - 48

/-- Decimal digit character for a value in 0..9. -/
def digitChar : ℕ → Char
  | 0 => '0'
  | 1 => '1'
  | 2 => '2'
  | 3 => '3'
  | 4 => '4'
  | 5 => '5'
  | 6 => '6'
  | 7 => '7'
  | 8 => '8'
  | 9 => '9'
  | _ => '*'

/-- Numeric value of a digit string read left to right, as parseFloat reads
the integer part of a number. -/
def digitsVal (l : List Char) : ℕ := l.foldl (fun a c => 10 * a + digitVal c) 0

/-- Fuel-driven construction of the decimal digits of a natural number,
mirroring the digits JavaScript produces when concatenating an integer
number into a string. -/
def natDigitsAux : ℕ → ℕ → List Char
  | 0, _ => []
  | fuel + 1, n =>
    if n < 10 then [digitChar n]
    else natDigitsAux fuel (n / 10) ++ [digitChar (n % 10)]

/-- Decimal digits of a natural number. -/
def natToDigits (n : ℕ) : List Char := natDigitsAux (n + 1) n

/-- Decimal string of a natural number, as JavaScript string conversion
renders an integer-valued number. -/
def natToString (n : ℕ) : String := String.mk (natToDigits n)

/-- Decimal string of an integer, as JavaScript renders integer numbers. -/
def intToString (i : ℤ) : String :=
  if i < 0 then "-" ++ natToString i.natAbs else natToString i.toNat

/-- Splitting of a character list at every occurrence of a separator, the
semantics of the JavaScript split method with a one-character separator.
The result is always non-empty and separator-free. -/
def splitOnChar (sep : Char) : List Char → List (List Char)
  | [] => [[]]
  | c :: r =>
    if c = sep then [] :: splitOnChar sep r
    else
      match splitOnChar sep r with
      | [] => [[c]]
      | p :: ps => (c :: p) :: ps

/-- Matching of the final group of the parseSeconds regular expression:
digits, an optional single dot, digits.  A list matches exactly when
splitting it at dots yields one or two all-digit (possibly empty) parts. -/
def fracForm (l : List Char) : Bool :=
  match splitOnChar '.' l with
  | [d] => d.all Char.isDigit
  | [d, f] => d.all Char.isDigit && f.all Char.isDigit
  | _ => false

/-- Matching of a leading regex group, one or more digits before a colon. -/
def digitsNE (l : List Char) : Bool := !l.isEmpty && l.all Char.isDigit

/-- Value of parseFloat on a string matching the final regex group:
NaN when the string contains no digit at all (empty or a bare dot),
otherwise the denoted decimal value. -/
def fracVal (l : List Char) : JsNum :=
  match splitOnChar '.' l with
  | [d] => if d.isEmpty then JsNum.nan else JsNum.num (digitsVal d)
  | [d, f] =>
    if d.isEmpty && f.isEmpty then JsNum.nan
    else JsNum.num ((digitsVal d : ℚ) + (digitsVal f : ℚ) / 10 ^ f.length)
  | _ => JsNum.nan

/-- Embedding of the source function parseSeconds (src/lecture.js lines
83-103).  The regular expression (d+:)?(d+:)?(d*.?d*) anchored at both ends
matches exactly when splitting the input at colons yields at most three
parts, the leading parts non-empty digit strings and the final part of
fracForm shape; the returned value mirrors the token arithmetic of the
source, where the final part parses to NaN when digit-less and NaN
propagates through the additions.  A result of none is the undefined
returned on a failed regex match. -/
def parseSecondsL (l : List Char) : Option JsNum :=
  match splitOnChar ':' l with
  | [p] => if fracForm p then some (fracVal p) else none
  | [p1, p] =>
    if digitsNE p1 && fracForm p then
      some (jsAdd (fracVal p) (JsNum.num (60 * digitsVal p1)))
    else none
  | [p1, p2, p] =>
    if digitsNE p1 && digitsNE p2 && fracForm p then
      some (jsAdd (jsAdd (fracVal p) (JsNum.num (60 * digitsVal p2)))
                  (JsNum.num (3600 * digitsVal p1)))
    else none
  | _ => none

/-- Embedding of parseSeconds on strings. -/
def parseSeconds (s : String) : Option JsNum := parseSecondsL s.data

/-- Embedding of the source function formatSeconds (src/lecture.js lines
112-124) on a natural number of seconds; the source floors its numeric
argument first, which is the identity on integer inputs. -/
def formatSeconds (n : ℕ) : String :=
  let seconds := n % 60
  let minutes := n / 60 % 60
  let hours := n / 3600
  let minuteSep : String := if seconds < 10 then ":0" else ":"
  let hourSep : String := if minutes < 10 then ":0" else ":"
  (if hours ≠ 0 then natToString hours ++ hourSep else "")
    ++ natToString minutes ++ minuteSep ++ natToString seconds

/-- A text-track cue as produced by the transition builder: the active
interval, the directive text, and the registering source Video (the source
stores the Video object on the cue; components are identified by name). -/
structure Cue where
  startTime : JsNum
  endTime : JsNum
  text : String
  sourceVideo : String
  deriving DecidableEq

/-- Transition options object passed to addTransition, and the per-video
transition defaults merged into it.  A field holding none models an absent
key.  Option time values are modeled as integers, which JavaScript
serializes as plain decimal digit strings; the duration only enters cue
arithmetic and stays rational. -/
structure TransOptions where
  time : Option ℤ
  play : Option Bool
  duration : Option ℚ
  deriving DecidableEq

/-- First-write-wins merge of transition options (the extend helper of the
source, src/lecture.js lines 57-66): a key is copied from the defaults only
when the target object does not already own it. -/
def mergeTrans (o g : TransOptions) : TransOptions where
  time := o.time.orElse fun _ => g.time
  play := o.play.orElse fun _ => g.play
  duration := o.duration.orElse fun _ => g.duration

/-- Shipped per-video transition defaults, defaultOptions.video.transition
in the source: play true, duration 0, no time key. -/
def defaultVideoTransition : TransOptions where
  time := none
  play := some true
  duration := some 0

/-- JavaScript truthiness of an optional boolean option value: an absent
key reads as undefined, which is falsy. -/
def truthyOptBool : Option Bool → Bool
  | some b => b
  | none => false

/-- Directive text built by addTransition: the target name, a space and
the time token when the merged options own a time key, and a space and the
token stop when the merged play value is falsy. -/
def transitionText (targetName : String) (merged : TransOptions) : String :=
  (targetName ++
    match merged.time with
    | some t => " " ++ intToString t
    | none => "")
  ++ (if truthyOptBool merged.play then "" else " stop")

/-- Embedding of Video.prototype.addTransition (src/lecture.js lines
794-825), restricted to the cue it constructs.  The source merges defaults
from video.options.transition, but video is an unbound identifier there:
the module body runs in strict mode and declares no such variable, so the
merge source is whatever global binding named video the embedding page
happens to expose.  That environment binding is modeled as an explicit
parameter; none means the identifier is unresolvable, in which case the
call throws a ReferenceError before any cue is built, modeled as a none
result. -/
def addTransitionCue (globalVideoTransition : Option TransOptions)
    (sourceVideo targetName : String) (time : ℚ) (opts : TransOptions) : Option Cue :=
  match globalVideoTransition with
  | none => none
  | some g =>
    let merged := mergeTrans opts g
    let untl : JsNum :=
      match merged.duration with
      | some d => JsNum.num (time + d)
      | none => JsNum.nan
    some { startTime := JsNum.num time
           endTime := untl
           text := transitionText targetName merged
           sourceVideo := sourceVideo }

/-- Tokens of a directive text: the split of the cue text at spaces
performed by the cue enter handler. -/
def directiveTokens (text : String) : List String :=
  (splitOnChar ' ' text.data).map String.mk

/-- Resolution of the optional time token by the enter handler.  The
source computes tokens[1] and parseSeconds(tokens[1]) combined with the
short-circuiting and operator and then tests typeof time === number: an
absent or empty token gives no seek, a failed parse (undefined) gives no
seek, and any numeric parse, NaN included, seeks. -/
def resolveTime : Option String → Option JsNum
  | none => none
  | some tk => if tk = "" then none else parseSeconds tk

/-- A resolved directive: the pieces of information the cue enter handler
extracts from the cue text before acting on the target. -/
structure Directive where
  targetName : String
  targetTime : Option JsNum
  play : Bool
  deriving DecidableEq

/-- Resolution of a directive text by the cue enter handler (src/lecture.js
lines 724-762): token zero names the target, token one is the optional
seek time, and playback is started unless token two is exactly stop. -/
def resolveDirective (text : String) : Directive where
  targetName := (directiveTokens text).headD ""
  targetTime := resolveTime (directiveTokens text)[1]?
  play := !((directiveTokens text)[2]? == some "stop")

/-- Mutable state of a Video component in the current revision.  The
element time and the stored data.currentTime are distinct fields, as in
the source; propTime is the currentTime property the cue enter handler
writes directly on the Video object (read nowhere else in this revision),
and displayTime is the time text written through setCurrentTime, the
presented current-time.  Real Video objects are always registered in the
lecture registry by their constructor, so components are identified by
name here. -/
structure VideoState where
  paused : Bool
  elemTime : JsNum
  storedTime : JsNum
  propTime : JsNum
  displayTime : JsNum
  visible : Bool
  preloadAuto : Bool
  pauseButton : Bool
  tinyBar : Bool
  fromCue : Option Cue
  deriving DecidableEq

/-- Mutable state of an Overlay component; visibility is authoritatively
tracked by membership of the name in the currentOverlays set. -/
structure OverlayState where
  visible : Bool
  zIndex : ℕ
  fromCue : Option Cue
  deriving DecidableEq

/-- Registry state of a Lecture (current revision): the component maps,
the current video pointer, the set of shown overlay names, and the
stacking counter. -/
structure LectureState where
  videos : List (String × VideoState)
  overlays : List (String × OverlayState)
  currentVideo : Option String
  currentOverlays : List String
  zIndexCount : ℕ
  deriving DecidableEq

/-- Property lookup in an object used as a dictionary. -/
def alookup {α : Type} (n : String) : List (String × α) → Option α
  | [] => none
  | (k, v) :: r => if k = n then some v else alookup n r

/-- Resolved component reference, the result of getComponent. -/
inductive Component where
  | video (name : String)
  | overlay (name : String)
  deriving DecidableEq

/-- Embedding of Lecture.prototype.getComponent (lines 1169-1172): videos
are consulted first, then overlays, then null. -/
def getComponent (s : LectureState) (n : String) : Option Component :=
  match alookup n s.videos with
  | some _ => some (Component.video n)
  | none =>
    match alookup n s.overlays with
    | some _ => some (Component.overlay n)
    | none => none

/-- Update of the video object stored under a name. -/
def updVideo (s : LectureState) (n : String) (f : VideoState → VideoState) : LectureState :=
  { s with videos := s.videos.map fun p => if p.1 = n then (p.1, f p.2) else p }

/-- Update of the overlay object stored under a name. -/
def updOverlay (s : LectureState) (n : String) (f : OverlayState → OverlayState) : LectureState :=
  { s with overlays := s.overlays.map fun p => if p.1 = n then (p.1, f p.2) else p }

/-- Replacement of the currentVideo pointer, leaving the rest of the
registry untouched. -/
def setCurrentVideo (s : LectureState) (x : Option String) : LectureState :=
  { s with currentVideo := x }

/-- Registration of an overlay name as shown, advancing the stacking
counter, as Overlay.prototype.show does before the visual steps. -/
def pushOverlay (s : LectureState) (o : String) : LectureState :=
  { s with currentOverlays := o :: s.currentOverlays, zIndexCount := s.zIndexCount + 1 }

/-- Removal of an overlay name from the shown set. -/
def popOverlay (s : LectureState) (o : String) : LectureState :=
  { s with currentOverlays := s.currentOverlays.filter fun n => n != o }

/-- Embedding of Lecture.prototype.showingOverlay (lines 1197-1212): true
exactly when some currently shown overlay arose from an instantaneous
cue. -/
def showingOverlay (s : LectureState) : Bool :=
  s.currentOverlays.any fun n =>
    match alookup n s.overlays with
    | some ov =>
      match ov.fromCue with
      | some c => jsEqb c.startTime c.endTime
      | none => false
    | none => false

/-- Embedding of Video.prototype.setPosition (lines 834-838): both the
stored position and the element position are written. -/
def setPosition (s : LectureState) (v : String) (t : JsNum) : LectureState :=
  updVideo s v fun vs => { vs with storedTime := t, elemTime := t }

/-- Embedding of showFullProgressBar (lines 356-362): the compact classes
are removed when the video is playing or no blocking overlay is shown. -/
def showFullBar (s : LectureState) (v : String) : LectureState :=
  updVideo s v fun vs =>
    if !vs.paused || !showingOverlay s then { vs with tinyBar := false } else vs

/-- Embedding of showTinyProgressBar (lines 364-370): the compact classes
are added while the video is playing. -/
def showTinyBar (s : LectureState) (v : String) : LectureState :=
  updVideo s v fun vs => if !vs.paused then { vs with tinyBar := true } else vs

/-- Embedding of Video.prototype.pause (lines 881-887): pause the element,
show the play glyph, restore the full bar, and store the element position
through setPosition. -/
def videoPause (s : LectureState) (v : String) : LectureState :=
  let s1 := updVideo s v fun vs => { vs with paused := true, pauseButton := false }
  let s2 := showFullBar s1 v
  match alookup v s2.videos with
  | some vs => setPosition s2 v vs.elemTime
  | none => s2

/-- Embedding of Video.prototype.hide (lines 914-924): a no-op unless this
video is current; otherwise pause, clear the pointer, drop eager
buffering and the container visibility class. -/
def videoHide (s : LectureState) (v : String) : LectureState :=
  if s.currentVideo = some v then
    let s1 := videoPause s v
    let s2 := setCurrentVideo s1 none
    updVideo s2 v fun vs => { vs with preloadAuto := false, visible := false }
  else s

/-- Embedding of Video.prototype.show (lines 894-907): a no-op when
already current; otherwise the previous current video is hidden first,
then the pointer and the visibility class move to this video. -/
def videoShow (s : LectureState) (v : String) : LectureState :=
  if s.currentVideo = some v then s
  else
    let s1 :=
      match s.currentVideo with
      | some w => videoHide s w
      | none => s
    let s2 := setCurrentVideo s1 (some v)
    updVideo s2 v fun vs => { vs with preloadAuto := true, visible := true }

/-- Embedding of Video.prototype.play (lines 861-874): show first, then
start only when the element is paused and no blocking overlay is shown;
a non-returning start first re-seeks to the stored position. -/
def videoPlay (s : LectureState) (v : String) (returning : Bool) : LectureState :=
  let s1 := videoShow s v
  match alookup v s1.videos with
  | none => s1
  | some vs =>
    if vs.paused && !showingOverlay s1 then
      let s2 := if !returning then setPosition s1 v vs.storedTime else s1
      updVideo s2 v fun u => { u with paused := false, pauseButton := true }
    else s1

/-- Embedding of Overlay.prototype.show (lines 1034-1044): no-op when
already shown, otherwise register, stack, mark visible, and compact the
current video progress bar.  The final step reads
this.lecture.currentVideo and throws when no video is current; a thrown
error is modeled as none. -/
def overlayShow (s : LectureState) (o : String) : Option LectureState :=
  if o ∈ s.currentOverlays then some s
  else
    let s1 := pushOverlay s o
    let s2 := updOverlay s1 o fun ov => { ov with visible := true, zIndex := s1.zIndexCount }
    match s2.currentVideo with
    | some cv => some (showTinyBar s2 cv)
    | none => none

/-- Embedding of Overlay.prototype.hide (lines 1051-1060): no-op when not
shown, otherwise deregister, unmark, and restore the current video
progress bar, throwing when no video is current. -/
def overlayHide (s : LectureState) (o : String) : Option LectureState :=
  if o ∈ s.currentOverlays then
    let s1 := popOverlay s o
    let s2 := updOverlay s1 o fun ov => { ov with visible := false }
    match s2.currentVideo with
    | some cv => some (showFullBar s2 cv)
    | none => none
  else some s

/-- Embedding of cueEnterHandler (lines 724-762).  Token zero is resolved
through the registry; a missing component makes the show call throw,
modeled as none.  The target records the cue it came from.  A Video
target is optionally seeked (object property, displayed time and element
time) and optionally started, and then the source Video object property
currentTime and its displayed time are rewritten to the cue start (the
element write is commented out in the source).  An Overlay target of an
instantaneous cue pauses the source video and does the same rewrite. -/
def cueEnter (s : LectureState) (c : Cue) : Option LectureState :=
  let d := resolveDirective c.text
  match getComponent s d.targetName with
  | none => none
  | some (Component.video tv) =>
    let s1 := videoShow s tv
    let s2 := updVideo s1 tv fun vs => { vs with fromCue := some c }
    let s3 :=
      match d.targetTime with
      | some t => updVideo s2 tv fun vs => { vs with propTime := t, displayTime := t, elemTime := t }
      | none => s2
    let s4 := if d.play then videoPlay s3 tv false else s3
    some (updVideo s4 c.sourceVideo fun vs =>
      { vs with propTime := c.startTime, displayTime := c.startTime })
  | some (Component.overlay tov) =>
    match overlayShow s tov with
    | none => none
    | some s1 =>
      let s2 := updOverlay s1 tov fun ov => { ov with fromCue := some c }
      if jsEqb c.startTime c.endTime then
        let s3 := videoPause s2 c.sourceVideo
        some (updVideo s3 c.sourceVideo fun vs =>
          { vs with propTime := c.startTime, displayTime := c.startTime })
      else some s2

/-- Embedding of cueExitHandler (lines 767-778): the target is resolved
with the full cue text, so a directive with extra tokens fails the lookup
and the constructor access throws, modeled as none.  Only an Overlay
target of a non-instantaneous cue is hidden. -/
def cueExit (s : LectureState) (c : Cue) : Option LectureState :=
  match getComponent s c.text with
  | none => none
  | some (Component.video _) => some s
  | some (Component.overlay o) =>
    if !jsEqb c.startTime c.endTime then overlayHide s o else some s

/-- Options object for Overlay.prototype.doTransition together with the
overlay transition defaults merged into it; none models an absent key. -/
structure DTOptions where
  target : Option String
  time : Option JsNum
  stop : Option Bool
  hide : Option Bool
  play : Option Bool
  deriving DecidableEq

/-- First-write-wins merge of overlay transition options. -/
def mergeDT (o g : DTOptions) : DTOptions where
  target := o.target.orElse fun _ => g.target
  time := o.time.orElse fun _ => g.time
  stop := o.stop.orElse fun _ => g.stop
  hide := o.hide.orElse fun _ => g.hide
  play := o.play.orElse fun _ => g.play

/-- Shipped overlay transition defaults, defaultOptions.overlay.transition
in the source: play true and hide true.  The code below reads
options.stop, which these defaults leave undefined. -/
def defaultOverlayTransition : DTOptions where
  target := none
  time := none
  stop := none
  hide := some true
  play := some true

/-- JavaScript truthiness of an optional string: undefined and the empty
string are falsy. -/
def truthyOptStr : Option String → Bool
  | some t => t != ""
  | none => false

/-- JavaScript truthiness of an optional number: undefined, 0 and NaN are
falsy. -/
def truthyOptNum : Option JsNum → Bool
  | some t => jsTruthy t
  | none => false

/-- Embedding of Overlay.prototype.doTransition (lines 1002-1027), current
revision.  The target name falls back on the current video name (throwing
when none is current), the time falls back on the target data.currentTime
whenever the supplied time is falsy, because the source uses the
short-circuiting or operator, the returning flag compares object identity
and times under strict equality, and the final play call throws for
Overlay targets.  Thrown errors are modeled as none. -/
def doTransition (s : LectureState) (selfName : String) (callerOpts mergeSrc : DTOptions) :
    Option LectureState :=
  let o := mergeDT callerOpts mergeSrc
  match (if truthyOptStr o.target then o.target else s.currentVideo) with
  | none => none
  | some tname =>
    match getComponent s tname with
    | none => none
    | some (Component.video v) =>
      match alookup v s.videos with
      | none => none
      | some vs =>
        let time := if truthyOptNum o.time then o.time.getD JsNum.nan else vs.storedTime
        let returning := (s.currentVideo == some v) && jsEqb time vs.storedTime
        let s1 := videoShow s v
        let s2 := updVideo s1 v fun u => { u with storedTime := time }
        match (if truthyOptBool o.hide then overlayHide s2 selfName else some s2) with
        | none => none
        | some s3 => some (if truthyOptBool o.stop then s3 else videoPlay s3 v returning)
    | some (Component.overlay ovn) =>
      if truthyOptNum o.time then
        match overlayShow s ovn with
        | none => none
        | some s1 =>
          match (if truthyOptBool o.hide then overlayHide s1 selfName else some s1) with
          | none => none
          | some s2 => if truthyOptBool o.stop then some s2 else none
      else none

/-- Mutable state of a Video in the earlier revision, src/unnamed/part_000:
there currentTime is a direct property holding the stored resume
position. -/
structure Video000 where
  paused : Bool
  elemTime : JsNum
  currentTime : JsNum
  visible : Bool
  deriving DecidableEq

/-- Registry state of the earlier revision; overlays carry no state the
modeled operations read beyond registration and shown-set membership. -/
structure State000 where
  videos : List (String × Video000)
  overlayNames : List String
  currentVideo : Option String
  currentOverlays : List String
  zIndexCount : ℕ
  deriving DecidableEq

/-- Update of a video object of the earlier revision. -/
def updVideo000 (s : State000) (n : String) (f : Video000 → Video000) : State000 :=
  { s with videos := s.videos.map fun p => if p.1 = n then (p.1, f p.2) else p }

/-- Embedding of getComponent of the earlier revision. -/
def getComponent000 (s : State000) (n : String) : Option Component :=
  match alookup n s.videos with
  | some _ => some (Component.video n)
  | none => if n ∈ s.overlayNames then some (Component.overlay n) else none

/-- Replacement of the currentVideo pointer of the earlier revision. -/
def setCurrentVideo000 (s : State000) (x : Option String) : State000 :=
  { s with currentVideo := x }

/-- Embedding of part_000 Video.prototype.pause: only the element is
paused, nothing is stored. -/
def videoPause000 (s : State000) (v : String) : State000 :=
  updVideo000 s v fun vs => { vs with paused := true }

/-- Embedding of part_000 Video.prototype.hide. -/
def videoHide000 (s : State000) (v : String) : State000 :=
  if s.currentVideo = some v then
    let s1 := videoPause000 s v
    updVideo000 (setCurrentVideo000 s1 none) v fun vs => { vs with visible := false }
  else s

/-- Embedding of part_000 Video.prototype.show. -/
def videoShow000 (s : State000) (v : String) : State000 :=
  if s.currentVideo = some v then s
  else
    let s1 :=
      match s.currentVideo with
      | some w => videoHide000 s w
      | none => s
    updVideo000 (setCurrentVideo000 s1 (some v)) v fun vs => { vs with visible := true }

/-- Embedding of part_000 Video.prototype.play: no overlay blocking test;
a non-returning start seeks the element to the stored currentTime. -/
def videoPlay000 (s : State000) (v : String) (returning : Bool) : State000 :=
  let s1 := videoShow000 s v
  match alookup v s1.videos with
  | none => s1
  | some vs =>
    if vs.paused then
      let s2 :=
        if !returning then updVideo000 s1 v fun u => { u with elemTime := u.currentTime } else s1
      updVideo000 s2 v fun u => { u with paused := false }
    else s1

/-- Embedding of part_000 Overlay.prototype.show, which touches no video
state and therefore cannot throw. -/
def overlayShow000 (s : State000) (o : String) : State000 :=
  if o ∈ s.currentOverlays then s
  else { s with currentOverlays := o :: s.currentOverlays, zIndexCount := s.zIndexCount + 1 }

/-- Embedding of part_000 Overlay.prototype.hide. -/
def overlayHide000 (s : State000) (o : String) : State000 :=
  if o ∈ s.currentOverlays then
    { s with currentOverlays := s.currentOverlays.filter fun n => n != o }
  else s

/-- Options for part_000 doTransition; the merge there uses the extend
helper, so an explicitly supplied key always wins, zero included. -/
structure DT000Options where
  target : Option String
  time : Option JsNum
  stop : Option Bool
  hide : Option Bool
  deriving DecidableEq

/-- Embedding of part_000 Overlay.prototype.doTransition.  The defaults
object eagerly reads currentVideo.id, throwing when no video is current.
An explicitly given time is preserved by the hasOwnProperty merge, even
zero; the returning flag compares the time with the stored time of the
current video.  A missing target or an Overlay target reaching the play
call throws; thrown errors are modeled as none. -/
def doTransition000 (s : State000) (selfName : String) (callerOpts : DT000Options) :
    Option State000 :=
  match s.currentVideo with
  | none => none
  | some cvName =>
    let tname := callerOpts.target.getD cvName
    let ostop := callerOpts.stop.getD false
    let ohide := callerOpts.hide.getD true
    match getComponent000 s tname with
    | none => none
    | some (Component.video v) =>
      match alookup v s.videos, alookup cvName s.videos with
      | some vs, some cvs =>
        let time := callerOpts.time.getD vs.currentTime
        let returning := (decide (v = cvName)) && jsEqb time cvs.currentTime
        let s1 := videoShow000 s v
        let s2 := updVideo000 s1 v fun u => { u with currentTime := time }
        let s3 := if ohide then overlayHide000 s2 selfName else s2
        some (if ostop then s3 else videoPlay000 s3 v returning)
      | _, _ => none
    | some (Component.overlay ovn) =>
      if ostop then
        let s1 := overlayShow000 s ovn
        some (if ohide then overlayHide000 s1 selfName else s1)
      else none

/-- Acceptance of a final time field by the documented forms (spec section
4.1 and the source doc comment): a digit string with an optional dot and
fraction digits, where every component present has at least one digit; a
bare dot-fraction is allowed only where the documentation lists the
standalone .frac form.  This definition follows the specification words,
for comparison with the parser. -/
def lastFieldOK (l : List Char) (allowBare : Bool) : Bool :=
  match splitOnChar '.' l with
  | [d] => digitsNE d
  | [d, f] => digitsNE f && (digitsNE d || (allowBare && d.isEmpty))
  | _ => false

/-- Documented well-formed time strings: hh:mm:ss, mm:ss, ss, each with an
optional dot-fraction, or a bare dot-fraction, every numeric component
having at least one digit.  Written from the specification words. -/
def specWellFormed (l : List Char) : Bool :=
  match splitOnChar ':' l with
  | [p] => lastFieldOK p true
  | [p1, p] => digitsNE p1 && lastFieldOK p false
  | [p1, p2, p] => digitsNE p1 && digitsNE p2 && lastFieldOK p false
  | _ => false

/-- Value denoted by a well-formed final field. -/
def specFieldVal (l : List Char) : ℚ :=
  match splitOnChar '.' l with
  | [d] => digitsVal d
  | [d, f] => (digitsVal d : ℚ) + (digitsVal f : ℚ) / 10 ^ f.length
  | _ => 0

/-- Number of seconds denoted by a documented well-formed time string. -/
def specValue (l : List Char) : ℚ :=
  match splitOnChar ':' l with
  | [p] => specFieldVal p
  | [p1, p] => 60 * digitsVal p1 + specFieldVal p
  | [p1, p2, p] => 3600 * digitsVal p1 + 60 * digitsVal p2 + specFieldVal p
  | _ => 0

/-- The relaxed pattern the implementation regular expression accepts:
like the documented forms except that the final field may be digit-less
or carry a dangling dot. -/
def laxPattern (l : List Char) : Bool :=
  match splitOnChar ':' l with
  | [p] => fracForm p
  | [p1, p] => digitsNE p1 && fracForm p
  | [p1, p2, p] => digitsNE p1 && digitsNE p2 && fracForm p
  | _ => false

/-- Test for a final field without any digit, the case parseFloat turns
into NaN. -/
def digitlessField (l : List Char) : Bool :=
  match splitOnChar '.' l with
  | [d] => d.isEmpty
  | [d, f] => d.isEmpty && f.isEmpty
  | _ => false

/-- Test for a digit-less final field of the whole time string. -/
def lastFieldDigitless (l : List Char) : Bool :=
  digitlessField ((splitOnChar ':' l).getLastD [])

/-- Visibility invariant of the registry: every registered video whose
container carries the visibility class is the current video; in
particular at most one video container is marked visible at a time. -/
def videoInv (s : LectureState) : Prop :=
  ∀ n vs, alookup n s.videos = some vs → vs.visible = true → s.currentVideo = some n

/-- Fold of a sequence of show calls over the registry state. -/
def applyShows (s : LectureState) (calls : List String) : LectureState :=
  calls.foldl videoShow s

/-- Concrete video state used by the witness theorems: a playing, visible
video some way into its timeline. -/
def wVideoA : VideoState where
  paused := false
  elemTime := JsNum.num 21
  storedTime := JsNum.num 18
  propTime := JsNum.num 0
  displayTime := JsNum.num 7
  visible := true
  preloadAuto := true
  pauseButton := true
  tinyBar := false
  fromCue := none

/-- Concrete hidden, paused video used by the witness theorems. -/
def wVideoB : VideoState :=
  { wVideoA with visible := false, preloadAuto := false, paused := true }

/-- Concrete hidden overlay used by the witness theorems. -/
def wOverlayO : OverlayState where
  visible := false
  zIndex := 0
  fromCue := none

/-- Concrete instantaneous overlay cue used by the witness theorems. -/
def wCueInst : Cue where
  startTime := JsNum.num 30
  endTime := JsNum.num 30
  text := "O"
  sourceVideo := "A"

/-- Concrete interval overlay cue used by the witness theorems. -/
def wCueSpan : Cue where
  startTime := JsNum.num 20
  endTime := JsNum.num 25
  text := "O"
  sourceVideo := "A"

/-- Concrete registry with one playing video, one hidden video and one
hidden overlay, used by the witness theorems. -/
def wState : LectureState where
  videos := [("A", wVideoA), ("B", wVideoB)]
  overlays := [("O", wOverlayO)]
  currentVideo := some "A"
  currentOverlays := []
  zIndexCount := 0

/-- Concrete registry in which the current video sits paused behind a
blocking overlay shown by an instantaneous cue. -/
def wStateBlocked : LectureState where
  videos := [("A", { wVideoA with paused := true })]
  overlays := [("O", { wOverlayO with visible := true, fromCue := some wCueInst })]
  currentVideo := some "A"
  currentOverlays := ["O"]
  zIndexCount := 1

/-- Concrete registry of the earlier revision with one paused current
video, used by the witness theorem of the revision comparison. -/
def wState000 : State000 where
  videos := [("A", { paused := true, elemTime := JsNum.num 21,
                     currentTime := JsNum.num 30, visible := true })]
  overlayNames := ["O"]
  currentVideo := some "A"
  currentOverlays := ["O"]
  zIndexCount := 1

/-- Concrete current-revision registry matching wState000, with the
overlay shown, used by the witness theorem of the revision comparison. -/
def wStateDT : LectureState where
  videos := [("A", { wVideoA with paused := true, storedTime := JsNum.num 30 })]
  overlays := [("O", wOverlayO)]
  currentVideo := some "A"
  currentOverlays := ["O"]
  zIndexCount := 1

/-- The restart idiom options: an explicit time of zero and nothing else,
as passed to doTransition in the current revision. -/
def wDTOpts : DTOptions where
  target := none
  time := some (JsNum.num 0)
  stop := none
  hide := none
  play := none

/-- The restart idiom options for the earlier revision. -/
def wDT000Opts : DT000Options where
  target := none
  time := some (JsNum.num 0)
  stop := none
  hide := none

/-! Basic lemmas about digits, digit strings and splitting. -/

lemma digitVal_digitChar : ∀ d, d < 10 → digitVal (digitChar d) = d := by decide

lemma isDigit_digitChar : ∀ d, d < 10 → (digitChar d).isDigit = true := by decide

lemma digitsVal_append_singleton (l : List Char) (c : Char) :
    digitsVal (l ++ [c]) = 10 * digitsVal l + digitVal c := by
  simp [digitsVal, List.foldl_append]

lemma digitsVal_natDigitsAux : ∀ fuel n, n < fuel → digitsVal (natDigitsAux fuel n) = n := by
  intro fuel
  induction fuel with
  | zero => intro n h; omega
  | succ f ih =>
    intro n h
    by_cases h10 : n < 10
    · simp [natDigitsAux, h10, digitsVal, digitVal_digitChar n h10]
    · have hdiv : n / 10 < n := Nat.div_lt_self (by omega) (by omega)
      have hf : n / 10 < f := by omega
      simp only [natDigitsAux, if_neg h10]
      rw [digitsVal_append_singleton, ih _ hf, digitVal_digitChar _ (Nat.mod_lt n (by omega))]
      omega

lemma digitsVal_natToDigits (n : ℕ) : digitsVal (natToDigits n) = n :=
  digitsVal_natDigitsAux (n + 1) n (by omega)

lemma all_isDigit_natDigitsAux : ∀ fuel n, (natDigitsAux fuel n).all Char.isDigit = true := by
  intro fuel
  induction fuel with
  | zero => intro n; simp [natDigitsAux]
  | succ f ih =>
    intro n
    by_cases h10 : n < 10
    · simp [natDigitsAux, h10, isDigit_digitChar n h10]
    · simp only [natDigitsAux, if_neg h10, List.all_append, ih]
      simp [isDigit_digitChar _ (Nat.mod_lt n (by omega))]

lemma all_isDigit_natToDigits (n : ℕ) : (natToDigits n).all Char.isDigit = true :=
  all_isDigit_natDigitsAux (n + 1) n

lemma natDigitsAux_ne_nil : ∀ fuel n, 0 < fuel → natDigitsAux fuel n ≠ [] := by
  intro fuel n h
  cases fuel with
  | zero => omega
  | succ f =>
    by_cases h10 : n < 10 <;> simp [natDigitsAux, h10]

lemma natToDigits_ne_nil (n : ℕ) : natToDigits n ≠ [] :=
  natDigitsAux_ne_nil (n + 1) n (by omega)

lemma not_mem_of_all_isDigit {l : List Char} (h : l.all Char.isDigit = true)
    {c : Char} (hc : c.isDigit = false) : c ∉ l := by
  intro hm
  have := List.all_eq_true.mp h c hm
  rw [hc] at this
  exact Bool.noConfusion this

lemma colon_not_mem_natToDigits (n : ℕ) : ':' ∉ natToDigits n :=
  not_mem_of_all_isDigit (all_isDigit_natToDigits n) (by decide)

lemma dot_not_mem_natToDigits (n : ℕ) : '.' ∉ natToDigits n :=
  not_mem_of_all_isDigit (all_isDigit_natToDigits n) (by decide)

lemma splitOnChar_ne_nil (sep : Char) (l : List Char) : splitOnChar sep l ≠ [] := by
  cases l with
  | nil => simp [splitOnChar]
  | cons c r =>
    by_cases h : c = sep
    · simp [splitOnChar, h]
    · simp only [splitOnChar, if_neg h]
      rcases hs : splitOnChar sep r with _ | ⟨p, ps⟩ <;> simp

lemma splitOnChar_of_not_mem (sep : Char) :
    ∀ l : List Char, sep ∉ l → splitOnChar sep l = [l] := by
  intro l
  induction l with
  | nil => intro _; rfl
  | cons c r ih =>
    intro h
    have hc : c ≠ sep := fun e => h (e ▸ List.mem_cons_self c r)
    have hr : sep ∉ r := fun hm => h (List.mem_cons_of_mem c hm)
    simp only [splitOnChar, if_neg hc, ih hr]

lemma splitOnChar_append (sep : Char) :
    ∀ a r : List Char, sep ∉ a →
      splitOnChar sep (a ++ sep :: r) = a :: splitOnChar sep r := by
  intro a
  induction a with
  | nil => intro r _; simp [splitOnChar]
  | cons c a0 ih =>
    intro r h
    have hc : c ≠ sep := fun e => h (e ▸ List.mem_cons_self c a0)
    have ha : sep ∉ a0 := fun hm => h (List.mem_cons_of_mem c hm)
    simp only [List.cons_append, splitOnChar, if_neg hc]
    rw [show a0.append (sep :: r) = a0 ++ sep :: r from rfl, ih r ha]

lemma digitsVal_cons_zero (l : List Char) : digitsVal ('0' :: l) = digitsVal l := rfl

lemma data_append (a b : String) : (a ++ b).data = a.data ++ b.data := rfl

lemma data_natToString (n : ℕ) : (natToString n).data = natToDigits n := rfl

lemma isEmpty_false_of_ne_nil {l : List Char} (h : l ≠ []) : l.isEmpty = false := by
  cases l with
  | nil => exact absurd rfl h
  | cons c r => rfl

lemma fracForm_digits (l : List Char) (h : l.all Char.isDigit = true) : fracForm l = true := by
  have hdot : '.' ∉ l := not_mem_of_all_isDigit h (by decide)
  simp [fracForm, splitOnChar_of_not_mem _ l hdot, h]

lemma fracVal_digits (l : List Char) (h : l.all Char.isDigit = true) (hne : l ≠ []) :
    fracVal l = JsNum.num (digitsVal l) := by
  have hdot : '.' ∉ l := not_mem_of_all_isDigit h (by decide)
  simp [fracVal, splitOnChar_of_not_mem _ l hdot, isEmpty_false_of_ne_nil hne]

lemma digitsNE_natToDigits (n : ℕ) : digitsNE (natToDigits n) = true := by
  simp [digitsNE, isEmpty_false_of_ne_nil (natToDigits_ne_nil n), all_isDigit_natToDigits n]

lemma padded_all_isDigit (p : Prop) [Decidable p] (n : ℕ) :
    ((if p then ['0'] else []) ++ natToDigits n).all Char.isDigit = true := by
  have h0 : ('0').isDigit = true := by decide
  by_cases h : p <;> simp [h, all_isDigit_natToDigits n, h0]

lemma padded_ne_nil (p : Prop) [Decidable p] (n : ℕ) :
    ((if p then ['0'] else []) ++ natToDigits n) ≠ [] := by
  by_cases h : p <;> simp [h, natToDigits_ne_nil n]

lemma digitsVal_padded (p : Prop) [Decidable p] (n : ℕ) :
    digitsVal ((if p then ['0'] else []) ++ natToDigits n) = n := by
  by_cases h : p
  · rw [if_pos h]
    show digitsVal ('0' :: natToDigits n) = n
    rw [digitsVal_cons_zero, digitsVal_natToDigits]
  · rw [if_neg h, List.nil_append, digitsVal_natToDigits]

lemma colon_not_mem_padded (p : Prop) [Decidable p] (n : ℕ) :
    ':' ∉ ((if p then ['0'] else []) ++ natToDigits n) :=
  not_mem_of_all_isDigit (padded_all_isDigit p n) (by decide)

lemma digitsNE_padded (p : Prop) [Decidable p] (n : ℕ) :
    digitsNE ((if p then ['0'] else []) ++ natToDigits n) = true := by
  simp [digitsNE, isEmpty_false_of_ne_nil (padded_ne_nil p n), padded_all_isDigit p n]

lemma fracVal_padded (p : Prop) [Decidable p] (n : ℕ) :
    fracVal ((if p then ['0'] else []) ++ natToDigits n) = JsNum.num (n : ℚ) := by
  rw [fracVal_digits _ (padded_all_isDigit p n) (padded_ne_nil p n), digitsVal_padded]

/-- Splitting the formatted string at colons, hour-less case. -/
lemma format_split_noHours (n : ℕ) (h3 : n / 3600 = 0) :
    splitOnChar ':' (formatSeconds n).data =
      [natToDigits (n / 60 % 60), (if n % 60 < 10 then ['0'] else []) ++ natToDigits (n % 60)] := by
  have hdata : (formatSeconds n).data =
      natToDigits (n / 60 % 60) ++ ':' ::
        ((if n % 60 < 10 then ['0'] else []) ++ natToDigits (n % 60)) := by
    simp only [formatSeconds]
    by_cases hs10 : n % 60 < 10 <;>
      simp [h3, hs10, data_append, natToString]
  rw [hdata, splitOnChar_append ':' _ _ (colon_not_mem_natToDigits _),
    splitOnChar_of_not_mem ':' _ (colon_not_mem_padded _ _)]

/-- Splitting the formatted string at colons, case with a non-zero hour field. -/
lemma format_split_hours (n : ℕ) (h3 : n / 3600 ≠ 0) :
    splitOnChar ':' (formatSeconds n).data =
      [natToDigits (n / 3600),
       (if n / 60 % 60 < 10 then ['0'] else []) ++ natToDigits (n / 60 % 60),
       (if n % 60 < 10 then ['0'] else []) ++ natToDigits (n % 60)] := by
  have hdata : (formatSeconds n).data =
      natToDigits (n / 3600) ++ ':' ::
        (((if n / 60 % 60 < 10 then ['0'] else []) ++ natToDigits (n / 60 % 60)) ++ ':' ::
          ((if n % 60 < 10 then ['0'] else []) ++ natToDigits (n % 60))) := by
    simp only [formatSeconds]
    by_cases hm10 : n / 60 % 60 < 10 <;> by_cases hs10 : n % 60 < 10 <;>
      simp [h3, hm10, hs10, data_append, natToString]
  rw [hdata, splitOnChar_append ':' _ _ (colon_not_mem_natToDigits _),
    splitOnChar_append ':' _ _ (colon_not_mem_padded _ _),
    splitOnChar_of_not_mem ':' _ (colon_not_mem_padded _ _)]

lemma parseSecondsL_single (l p : List Char) (h : splitOnChar ':' l = [p]) :
    parseSecondsL l = if fracForm p then some (fracVal p) else none := by
  rw [parseSecondsL, h]

lemma parseSecondsL_pair (l p1 p : List Char) (h : splitOnChar ':' l = [p1, p]) :
    parseSecondsL l =
      if digitsNE p1 && fracForm p then
        some (jsAdd (fracVal p) (JsNum.num (60 * digitsVal p1)))
      else none := by
  rw [parseSecondsL, h]

lemma parseSecondsL_triple (l p1 p2 p : List Char) (h : splitOnChar ':' l = [p1, p2, p]) :
    parseSecondsL l =
      if digitsNE p1 && digitsNE p2 && fracForm p then
        some (jsAdd (jsAdd (fracVal p) (JsNum.num (60 * digitsVal p2)))
                    (JsNum.num (3600 * digitsVal p1)))
      else none := by
  rw [parseSecondsL, h]

/-- Round-trip of the time formatter through the time parser on integer
second counts, the property claimed of parseSeconds and formatSeconds. -/
lemma parseSeconds_formatSeconds (n : ℕ) :
    parseSeconds (formatSeconds n) = some (JsNum.num (n : ℚ)) := by
  rw [parseSeconds]
  by_cases h3 : n / 3600 = 0
  · rw [parseSecondsL_pair _ _ _ (format_split_noHours n h3)]
    have hcond : (digitsNE (natToDigits (n / 60 % 60)) &&
        fracForm ((if n % 60 < 10 then ['0'] else []) ++ natToDigits (n % 60))) = true := by
      rw [digitsNE_natToDigits, fracForm_digits _ (padded_all_isDigit _ _)]
      rfl
    rw [if_pos hcond, fracVal_padded, digitsVal_natToDigits]
    simp only [jsAdd]
    have hlt : n < 3600 := (Nat.div_eq_zero_iff (by omega)).mp h3
    have hdiv : n / 60 < 60 := by omega
    have h1 : n % 60 + 60 * (n / 60 % 60) = n := by
      have e1 := Nat.div_add_mod n 60
      have e2 : n / 60 % 60 = n / 60 := Nat.mod_eq_of_lt hdiv
      omega
    have h2 : ((n % 60 : ℕ) : ℚ) + 60 * ((n / 60 % 60 : ℕ) : ℚ) = (n : ℚ) := by
      exact_mod_cast congrArg (fun k : ℕ => (k : ℚ)) h1
    rw [h2]
  · rw [parseSecondsL_triple _ _ _ _ (format_split_hours n h3)]
    have hcond : (digitsNE (natToDigits (n / 3600)) &&
        digitsNE ((if n / 60 % 60 < 10 then ['0'] else []) ++ natToDigits (n / 60 % 60)) &&
        fracForm ((if n % 60 < 10 then ['0'] else []) ++ natToDigits (n % 60))) = true := by
      rw [digitsNE_natToDigits, digitsNE_padded, fracForm_digits _ (padded_all_isDigit _ _)]
      rfl
    rw [if_pos hcond, fracVal_padded, digitsVal_natToDigits, digitsVal_padded]
    simp only [jsAdd]
    have h1 : n % 60 + 60 * (n / 60 % 60) + 3600 * (n / 3600) = n := by
      have e1 := Nat.div_add_mod n 60
      have e2 := Nat.div_add_mod (n / 60) 60
      have e3 : n / 60 / 60 = n / 3600 := by
        rw [Nat.div_div_eq_div_mul]
      omega
    have h2 : ((n % 60 : ℕ) : ℚ) + 60 * ((n / 60 % 60 : ℕ) : ℚ) + 3600 * ((n / 3600 : ℕ) : ℚ)
        = (n : ℚ) := by
      exact_mod_cast congrArg (fun k : ℕ => (k : ℚ)) h1
    rw [h2]

/-- Parsing of a bare decimal digit string recovers its value, the case a
directive time token goes through at dispatch. -/
lemma parseSeconds_natToString (n : ℕ) :
    parseSeconds (natToString n) = some (JsNum.num (n : ℚ)) := by
  rw [parseSeconds, data_natToString,
    parseSecondsL_single _ _ (splitOnChar_of_not_mem ':' _ (colon_not_mem_natToDigits n))]
  rw [if_pos (fracForm_digits _ (all_isDigit_natToDigits n)),
    fracVal_digits _ (all_isDigit_natToDigits n) (natToDigits_ne_nil n),
    digitsVal_natToDigits]

/-! Lemmas about registry lookups and the state operations. -/

lemma alookup_map_update {α : Type} (n v : String) (f : α → α) (l : List (String × α)) :
    alookup n (l.map fun p => if p.1 = v then (p.1, f p.2) else p)
      = if n = v then (alookup n l).map f else alookup n l := by
  induction l with
  | nil =>
    by_cases h : n = v <;> simp [alookup, h]
  | cons hd tl ih =>
    obtain ⟨k, val⟩ := hd
    rw [List.map_cons]
    by_cases hkv : k = v
    · rw [show (if (k, val).1 = v then ((k, val).1, f (k, val).2) else (k, val)) = (k, f val) by
        rw [if_pos hkv]]
      by_cases hkn : k = n
      · subst hkn
        rw [show alookup k ((k, f val) :: List.map (fun p => if p.1 = v then (p.1, f p.2) else p) tl)
            = some (f val) by rw [alookup, if_pos rfl]]
        rw [show alookup k ((k, val) :: tl) = some val by rw [alookup, if_pos rfl]]
        rw [if_pos (hkv : k = v)]
        rfl
      · rw [show alookup n ((k, f val) :: List.map (fun p => if p.1 = v then (p.1, f p.2) else p) tl)
            = alookup n (List.map (fun p => if p.1 = v then (p.1, f p.2) else p) tl) by
            rw [alookup, if_neg hkn]]
        rw [show alookup n ((k, val) :: tl) = alookup n tl by rw [alookup, if_neg hkn]]
        exact ih
    · rw [show (if (k, val).1 = v then ((k, val).1, f (k, val).2) else (k, val)) = (k, val) by
        rw [if_neg hkv]]
      by_cases hkn : k = n
      · subst hkn
        rw [show alookup k ((k, val) :: List.map (fun p => if p.1 = v then (p.1, f p.2) else p) tl)
            = some val by rw [alookup, if_pos rfl]]
        rw [show alookup k ((k, val) :: tl) = some val by rw [alookup, if_pos rfl]]
        rw [if_neg (show ¬ k = v from hkv)]
      · rw [show alookup n ((k, val) :: List.map (fun p => if p.1 = v then (p.1, f p.2) else p) tl)
            = alookup n (List.map (fun p => if p.1 = v then (p.1, f p.2) else p) tl) by
            rw [alookup, if_neg hkn]]
        rw [show alookup n ((k, val) :: tl) = alookup n tl by rw [alookup, if_neg hkn]]
        exact ih

lemma alookup_updVideo (s : LectureState) (n v : String) (f : VideoState → VideoState) :
    alookup n (updVideo s v f).videos
      = if n = v then (alookup n s.videos).map f else alookup n s.videos :=
  alookup_map_update n v f s.videos

lemma alookup_updOverlay (s : LectureState) (n v : String) (f : OverlayState → OverlayState) :
    alookup n (updOverlay s v f).overlays
      = if n = v then (alookup n s.overlays).map f else alookup n s.overlays :=
  alookup_map_update n v f s.overlays

lemma alookup_updVideo000 (s : State000) (n v : String) (f : Video000 → Video000) :
    alookup n (updVideo000 s v f).videos
      = if n = v then (alookup n s.videos).map f else alookup n s.videos :=
  alookup_map_update n v f s.videos

lemma videos_updOverlay (s : LectureState) (v : String) (f : OverlayState → OverlayState) :
    (updOverlay s v f).videos = s.videos := rfl

lemma overlays_updVideo (s : LectureState) (v : String) (f : VideoState → VideoState) :
    (updVideo s v f).overlays = s.overlays := rfl

lemma showingOverlay_updVideo (s : LectureState) (v : String) (f : VideoState → VideoState) :
    showingOverlay (updVideo s v f) = showingOverlay s := rfl

lemma showingOverlay_eq_of {s t : LectureState} (h1 : s.overlays = t.overlays)
    (h2 : s.currentOverlays = t.currentOverlays) : showingOverlay s = showingOverlay t := by
  rw [showingOverlay, showingOverlay, h1, h2]

lemma overlays_videoPause (s : LectureState) (v : String) :
    (videoPause s v).overlays = s.overlays := by
  simp only [videoPause]
  split <;> rfl

lemma currentOverlays_videoPause (s : LectureState) (v : String) :
    (videoPause s v).currentOverlays = s.currentOverlays := by
  simp only [videoPause]
  split <;> rfl

lemma currentVideo_videoPause (s : LectureState) (v : String) :
    (videoPause s v).currentVideo = s.currentVideo := by
  simp only [videoPause]
  split <;> rfl

lemma overlays_videoHide (s : LectureState) (v : String) :
    (videoHide s v).overlays = s.overlays := by
  simp only [videoHide]
  split
  · show (videoPause s v).overlays = s.overlays
    exact overlays_videoPause s v
  · rfl

lemma currentOverlays_videoHide (s : LectureState) (v : String) :
    (videoHide s v).currentOverlays = s.currentOverlays := by
  simp only [videoHide]
  split
  · show (videoPause s v).currentOverlays = s.currentOverlays
    exact currentOverlays_videoPause s v
  · rfl

lemma overlays_videoShow (s : LectureState) (v : String) :
    (videoShow s v).overlays = s.overlays := by
  simp only [videoShow]
  split
  · rfl
  · split
    · show (videoHide s _).overlays = s.overlays
      exact overlays_videoHide s _
    · rfl

lemma currentOverlays_videoShow (s : LectureState) (v : String) :
    (videoShow s v).currentOverlays = s.currentOverlays := by
  simp only [videoShow]
  split
  · rfl
  · split
    · show (videoHide s _).currentOverlays = s.currentOverlays
      exact currentOverlays_videoHide s _
    · rfl

lemma showingOverlay_videoShow (s : LectureState) (v : String) :
    showingOverlay (videoShow s v) = showingOverlay s :=
  showingOverlay_eq_of (overlays_videoShow s v) (currentOverlays_videoShow s v)

lemma showingOverlay_videoPause (s : LectureState) (v : String) :
    showingOverlay (videoPause s v) = showingOverlay s :=
  showingOverlay_eq_of (overlays_videoPause s v) (currentOverlays_videoPause s v)

lemma videos_setCurrentVideo (s : LectureState) (x : Option String) :
    (setCurrentVideo s x).videos = s.videos := rfl

lemma alookup_videoPause_of_ne (s : LectureState) (v n : String) (h : ¬ n = v) :
    alookup n (videoPause s v).videos = alookup n s.videos := by
  simp only [videoPause]
  split <;>
    simp only [setPosition, showFullBar, alookup_updVideo, if_neg h]

lemma videoPause_eq_some (s : LectureState) (v : String) (vs2 : VideoState)
    (h : alookup v (showFullBar (updVideo s v fun w =>
        { w with paused := true, pauseButton := false }) v).videos = some vs2) :
    videoPause s v = setPosition (showFullBar (updVideo s v fun w =>
        { w with paused := true, pauseButton := false }) v) v vs2.elemTime := by
  simp only [videoPause]
  rw [h]

lemma videoPause_eq_none (s : LectureState) (v : String)
    (h : alookup v (showFullBar (updVideo s v fun w =>
        { w with paused := true, pauseButton := false }) v).videos = none) :
    videoPause s v = showFullBar (updVideo s v fun w =>
        { w with paused := true, pauseButton := false }) v := by
  simp only [videoPause]
  rw [h]

lemma alookup_videoPause_self (s : LectureState) (v : String) (vs : VideoState)
    (hv : alookup v s.videos = some vs) :
    ∃ u, alookup v (videoPause s v).videos = some u ∧ u.paused = true ∧
      u.visible = vs.visible ∧ u.displayTime = vs.displayTime := by
  have h1 : alookup v (updVideo s v fun w => { w with paused := true, pauseButton := false }).videos
      = some { vs with paused := true, pauseButton := false } := by
    rw [alookup_updVideo, if_pos rfl, hv, Option.map_some']
  rcases h2 : alookup v (showFullBar (updVideo s v fun w =>
      { w with paused := true, pauseButton := false }) v).videos with _ | u2
  · exfalso
    rw [showFullBar, alookup_updVideo, if_pos rfl, h1, Option.map_some'] at h2
    exact Option.noConfusion h2
  · have hfields : u2.paused = true ∧ u2.visible = vs.visible ∧ u2.displayTime = vs.displayTime := by
      rw [showFullBar, alookup_updVideo, if_pos rfl, h1, Option.map_some'] at h2
      have h3 := Option.some_inj.mp h2
      rw [← h3]
      split <;> exact ⟨rfl, rfl, rfl⟩
    rw [videoPause_eq_some s v u2 h2]
    rw [setPosition, alookup_updVideo, if_pos rfl, h2, Option.map_some']
    exact ⟨_, rfl, hfields.1, hfields.2.1, hfields.2.2⟩

lemma videoPause_paused (s : LectureState) (v : String) (u : VideoState)
    (hu : alookup v (videoPause s v).videos = some u) : u.paused = true := by
  rcases hv : alookup v s.videos with _ | vs
  · exfalso
    have h1 : alookup v (updVideo s v fun w =>
        { w with paused := true, pauseButton := false }).videos = none := by
      rw [alookup_updVideo, if_pos rfl, hv, Option.map_none']
    have h2 : alookup v (showFullBar (updVideo s v fun w =>
        { w with paused := true, pauseButton := false }) v).videos = none := by
      rw [showFullBar, alookup_updVideo, if_pos rfl, h1, Option.map_none']
    rw [videoPause_eq_none s v h2, h2] at hu
    exact Option.noConfusion hu
  · obtain ⟨u2, hu2, hp, _, _⟩ := alookup_videoPause_self s v vs hv
    rw [hu2] at hu
    cases hu
    exact hp

lemma alookup_videoHide_of_ne (s : LectureState) (v n : String) (h : ¬ n = v) :
    alookup n (videoHide s v).videos = alookup n s.videos := by
  simp only [videoHide]
  split
  · rw [alookup_updVideo, if_neg h, videos_setCurrentVideo]
    exact alookup_videoPause_of_ne s v n h
  · rfl

lemma currentVideo_videoHide_self (s : LectureState) (w : String)
    (h : s.currentVideo = some w) : (videoHide s w).currentVideo = none := by
  simp only [videoHide, if_pos h]
  rfl

lemma alookup_videoHide_self (s : LectureState) (w : String) (vs : VideoState)
    (h : s.currentVideo = some w) (hv : alookup w s.videos = some vs) :
    ∃ u, alookup w (videoHide s w).videos = some u ∧ u.paused = true ∧ u.visible = false := by
  simp only [videoHide, if_pos h]
  obtain ⟨u1, hu1, hp1, _, _⟩ := alookup_videoPause_self s w vs hv
  rw [alookup_updVideo, if_pos rfl, videos_setCurrentVideo, hu1, Option.map_some']
  exact ⟨_, rfl, hp1, rfl⟩

lemma videoHide_visible_false (s : LectureState) (w : String) (u : VideoState)
    (h : s.currentVideo = some w)
    (hu : alookup w (videoHide s w).videos = some u) : u.visible = false ∧ u.paused = true := by
  simp only [videoHide, if_pos h] at hu
  rw [alookup_updVideo, if_pos rfl, videos_setCurrentVideo] at hu
  rcases hp : alookup w (videoPause s w).videos with _ | u1
  · rw [hp, Option.map_none'] at hu
    exact Option.noConfusion hu
  · rw [hp, Option.map_some'] at hu
    have h3 := Option.some_inj.mp hu
    rw [← h3]
    exact ⟨rfl, videoPause_paused s w u1 hp⟩

lemma videoShow_noop (s : LectureState) (v : String) (h : s.currentVideo = some v) :
    videoShow s v = s := by
  simp only [videoShow, if_pos h]

lemma currentVideo_videoShow (s : LectureState) (v : String) (h : ¬ s.currentVideo = some v) :
    (videoShow s v).currentVideo = some v := by
  simp only [videoShow, if_neg h]
  rfl

lemma alookup_videoShow_of_ne_none (s : LectureState) (v n : String)
    (hc : s.currentVideo = none) (hnv : ¬ n = v) :
    alookup n (videoShow s v).videos = alookup n s.videos := by
  have hcv : ¬ s.currentVideo = some v := by
    rw [hc]
    intro h
    exact Option.noConfusion h
  simp only [videoShow, hc]
  rw [if_neg (show ¬ (none : Option String) = some v from fun h2 => Option.noConfusion h2)]
  rw [alookup_updVideo, if_neg hnv, videos_setCurrentVideo]

lemma alookup_videoShow_of_ne_some (s : LectureState) (v n w : String)
    (hc : s.currentVideo = some w) (hwv : ¬ w = v) (hnv : ¬ n = v) :
    alookup n (videoShow s v).videos = alookup n (videoHide s w).videos := by
  have hcv : ¬ s.currentVideo = some v := by
    rw [hc]
    intro h
    exact hwv (Option.some_inj.mp h)
  simp only [videoShow, hc]
  rw [if_neg (show ¬ some w = some v from fun h2 => hwv (Option.some_inj.mp h2))]
  rw [alookup_updVideo, if_neg hnv, videos_setCurrentVideo]

lemma alookup_videoShow_self (s : LectureState) (v : String) (vs : VideoState)
    (hv : alookup v s.videos = some vs) :
    ∃ u, alookup v (videoShow s v).videos = some u ∧
      (videoShow s v).currentVideo = some v := by
  by_cases hc : s.currentVideo = some v
  · rw [videoShow_noop s v hc]
    exact ⟨vs, hv, hc⟩
  · have hcur := currentVideo_videoShow s v hc
    rcases hcv : s.currentVideo with _ | w
    · have hl : alookup v (videoShow s v).videos
          = some { vs with preloadAuto := true, visible := true } := by
        simp only [videoShow, hcv]
        rw [if_neg (show ¬ (none : Option String) = some v from fun h2 => Option.noConfusion h2)]
        rw [alookup_updVideo, if_pos rfl, videos_setCurrentVideo, hv, Option.map_some']
      exact ⟨_, hl, hcur⟩
    · have hwv : ¬ w = v := by
        intro h
        exact hc (by rw [hcv, h])
      have hlook : alookup v (videoHide s w).videos = some vs := by
        rw [alookup_videoHide_of_ne s w v (fun h2 => hwv h2.symm)]
        exact hv
      have hl : alookup v (videoShow s v).videos
          = some { vs with preloadAuto := true, visible := true } := by
        simp only [videoShow, hcv]
        rw [if_neg (show ¬ some w = some v from fun h2 => hwv (Option.some_inj.mp h2))]
        rw [alookup_updVideo, if_pos rfl, videos_setCurrentVideo, hlook, Option.map_some']
      exact ⟨_, hl, hcur⟩

lemma videoInv_videoShow (s : LectureState) (v : String) (h : videoInv s) :
    videoInv (videoShow s v) := by
  by_cases hc : s.currentVideo = some v
  · rw [videoShow_noop s v hc]
    exact h
  · intro n u hn hu
    rw [currentVideo_videoShow s v hc]
    by_cases hnv : n = v
    · rw [hnv]
    · exfalso
      rcases hcv : s.currentVideo with _ | w
      · rw [alookup_videoShow_of_ne_none s v n hcv hnv] at hn
        have h2 := h n u hn hu
        rw [hcv] at h2
        exact Option.noConfusion h2
      · have hwv : ¬ w = v := by
          intro h2
          exact hc (by rw [hcv, h2])
        rw [alookup_videoShow_of_ne_some s v n w hcv hwv hnv] at hn
        by_cases hnw : n = w
        · subst hnw
          obtain ⟨hvis, _⟩ := videoHide_visible_false s n u hcv hn
          rw [hu] at hvis
          exact Bool.noConfusion hvis
        · rw [alookup_videoHide_of_ne s w n hnw] at hn
          have h2 := h n u hn hu
          rw [hcv] at h2
          exact hnw (Option.some_inj.mp h2).symm

lemma videoInv_applyShows (s : LectureState) (calls : List String) (h : videoInv s) :
    videoInv (applyShows s calls) := by
  induction calls generalizing s with
  | nil => exact h
  | cons c rest ih => exact ih (videoShow s c) (videoInv_videoShow s c h)

lemma videoPlay_eq (s : LectureState) (v : String) (r : Bool) (vs : VideoState)
    (hv : alookup v (videoShow s v).videos = some vs) :
    videoPlay s v r =
      if vs.paused && !showingOverlay (videoShow s v) then
        updVideo (if !r then setPosition (videoShow s v) v vs.storedTime else videoShow s v) v
          fun u => { u with paused := false, pauseButton := true }
      else videoShow s v := by
  simp only [videoPlay]
  rw [hv]

lemma videoPlay_eq_none (s : LectureState) (v : String) (r : Bool)
    (hv : alookup v (videoShow s v).videos = none) :
    videoPlay s v r = videoShow s v := by
  simp only [videoPlay]
  rw [hv]

lemma videoPlay_noop_of_showingOverlay (s : LectureState) (v : String) (r : Bool)
    (hc : s.currentVideo = some v) (ho : showingOverlay s = true) :
    videoPlay s v r = s := by
  have hshow := videoShow_noop s v hc
  rcases hl : alookup v s.videos with _ | vs
  · rw [videoPlay_eq_none s v r (by rw [hshow]; exact hl), hshow]
  · rw [videoPlay_eq s v r vs (by rw [hshow]; exact hl), hshow, ho]
    simp

lemma videoPlay_starts (s : LectureState) (v : String) (r : Bool) (vs : VideoState)
    (hc : s.currentVideo = some v) (ho : showingOverlay s = false)
    (hv : alookup v s.videos = some vs) :
    ∃ u, alookup v (videoPlay s v r).videos = some u ∧ u.paused = false := by
  have hshow := videoShow_noop s v hc
  have hl2 : alookup v (videoShow s v).videos = some vs := by
    rw [hshow]
    exact hv
  rw [videoPlay_eq s v r vs hl2, hshow, ho]
  by_cases hp : vs.paused = true
  · rw [hp]
    rw [if_pos (show ((true && !false) = true) from rfl)]
    have hex : ∃ w, alookup v (if (!r) = true then setPosition s v vs.storedTime else s).videos
        = some w := by
      by_cases hr : (!r) = true
      · rw [if_pos hr, setPosition, alookup_updVideo, if_pos rfl, hv, Option.map_some']
        exact ⟨_, rfl⟩
      · rw [if_neg hr]
        exact ⟨_, hv⟩
    obtain ⟨w, hw⟩ := hex
    rw [alookup_updVideo, if_pos rfl, hw, Option.map_some']
    exact ⟨_, rfl, rfl⟩
  · have hp2 : vs.paused = false := by
      cases h2 : vs.paused
      · rfl
      · exact absurd h2 hp
    rw [hp2]
    rw [if_neg (show ¬ ((false && !false) = true) from fun h2 => Bool.noConfusion h2)]
    exact ⟨vs, hv, hp2⟩

lemma alookup_map_field_updVideo {β : Type} (s : LectureState) (v n : String)
    (f : VideoState → VideoState) (F : VideoState → β) (hf : ∀ u, F (f u) = F u) :
    (alookup n (updVideo s v f).videos).map F = (alookup n s.videos).map F := by
  rw [alookup_updVideo]
  by_cases h : n = v
  · rw [if_pos h, Option.map_map]
    congr 1
    funext u
    exact hf u
  · rw [if_neg h]

lemma showingOverlay_true_of (s : LectureState) (o : String) (ov : OverlayState) (c : Cue)
    (ho : o ∈ s.currentOverlays) (hov : alookup o s.overlays = some ov)
    (hc : ov.fromCue = some c) (hinst : jsEqb c.startTime c.endTime = true) :
    showingOverlay s = true := by
  simp only [showingOverlay, List.any_eq_true]
  exact ⟨o, ho, by simp [hov, hc, hinst]⟩

lemma overlayShow_eq (s : LectureState) (o : String) (cv : String)
    (hmem : o ∉ s.currentOverlays) (hcv : s.currentVideo = some cv) :
    overlayShow s o = some (showTinyBar (updOverlay (pushOverlay s o) o fun ov =>
      { ov with visible := true, zIndex := (pushOverlay s o).zIndexCount }) cv) := by
  simp only [overlayShow, if_neg hmem]
  have h2 : (updOverlay (pushOverlay s o) o fun ov =>
      { ov with visible := true, zIndex := (pushOverlay s o).zIndexCount }).currentVideo
      = some cv := hcv
  rw [h2]

lemma overlays_showTinyBar (s : LectureState) (cv : String) :
    (showTinyBar s cv).overlays = s.overlays := rfl

lemma overlayShow_char (s : LectureState) (o cv : String) (hcv : s.currentVideo = some cv) :
    ∃ s1, overlayShow s o = some s1 ∧ o ∈ s1.currentOverlays ∧
      s1.currentVideo = s.currentVideo ∧
      (∀ n, (alookup n s1.videos).map VideoState.paused
        = (alookup n s.videos).map VideoState.paused) ∧
      (∀ n, (alookup n s1.videos).map VideoState.displayTime
        = (alookup n s.videos).map VideoState.displayTime) ∧
      (∀ n, alookup n s1.overlays = alookup n s.overlays ∨
        ∃ ov, alookup n s.overlays = some ov ∧
          alookup n s1.overlays
            = some { ov with visible := true, zIndex := (pushOverlay s o).zIndexCount }) := by
  by_cases hmem : o ∈ s.currentOverlays
  · refine ⟨s, ?_, hmem, rfl, fun n => rfl, fun n => rfl, fun n => Or.inl rfl⟩
    simp only [overlayShow, if_pos hmem]
  · refine ⟨_, overlayShow_eq s o cv hmem hcv, ?_, ?_, ?_, ?_, ?_⟩
    · exact List.mem_cons_self o s.currentOverlays
    · rfl
    · intro n
      exact alookup_map_field_updVideo _ cv n _ VideoState.paused fun u => by split <;> rfl
    · intro n
      exact alookup_map_field_updVideo _ cv n _ VideoState.displayTime fun u => by split <;> rfl
    · intro n
      rw [overlays_showTinyBar, alookup_updOverlay]
      by_cases hno : n = o
      · rw [if_pos hno]
        rw [show alookup n (pushOverlay s o).overlays = alookup n s.overlays from rfl]
        rcases hov : alookup n s.overlays with _ | ov
        · exact Or.inl (by rw [Option.map_none'])
        · exact Or.inr ⟨ov, rfl, by rw [Option.map_some']⟩
      · rw [if_neg hno]
        exact Or.inl rfl

/-! Lemmas about directive texts and their resolution. -/

lemma string_mk_data (s : String) : String.mk s.data = s := rfl

lemma string_eq_of_data {a b : String} (h : a.data = b.data) : a = b := by
  cases a
  cases b
  cases h
  rfl

lemma directiveTokens_single (a : String) (ha : ' ' ∉ a.data) : directiveTokens a = [a] := by
  rw [directiveTokens, splitOnChar_of_not_mem ' ' a.data ha]
  rfl

lemma directiveTokens_pair (t : String) (a b : List Char)
    (hd : t.data = a ++ ' ' :: b) (ha : ' ' ∉ a) (hb : ' ' ∉ b) :
    directiveTokens t = [String.mk a, String.mk b] := by
  rw [directiveTokens, hd, splitOnChar_append _ _ _ ha, splitOnChar_of_not_mem _ _ hb]
  rfl

lemma directiveTokens_triple (t : String) (a b c : List Char)
    (hd : t.data = a ++ ' ' :: (b ++ ' ' :: c)) (ha : ' ' ∉ a) (hb : ' ' ∉ b) (hc : ' ' ∉ c) :
    directiveTokens t = [String.mk a, String.mk b, String.mk c] := by
  rw [directiveTokens, hd, splitOnChar_append _ _ _ ha, splitOnChar_append _ _ _ hb,
    splitOnChar_of_not_mem _ _ hc]
  rfl

lemma resolveDirective_of_tokens (t : String) (l : List String) (h : directiveTokens t = l) :
    resolveDirective t =
      { targetName := l.headD "", targetTime := resolveTime l[1]?,
        play := !(l[2]? == some "stop") } := by
  simp [resolveDirective, h]

lemma resolveDirective_single (a : String) (ha : ' ' ∉ a.data) :
    resolveDirective a = { targetName := a, targetTime := none, play := true } := by
  rw [resolveDirective_of_tokens a [a] (directiveTokens_single a ha)]
  rfl

lemma natToString_ne_empty (n : ℕ) : ¬ natToString n = "" := by
  intro h
  have h2 : (natToString n).data = [] := by rw [h]
  exact natToDigits_ne_nil n h2

lemma space_not_mem_natToString (n : ℕ) : ' ' ∉ (natToString n).data :=
  not_mem_of_all_isDigit (all_isDigit_natToDigits n) (by decide)

lemma resolveTime_natToString (n : ℕ) :
    resolveTime (some (natToString n)) = some (JsNum.num (n : ℚ)) := by
  simp only [resolveTime]
  rw [if_neg (natToString_ne_empty n), parseSeconds_natToString]

lemma intToString_natCast (t : ℕ) : intToString (t : ℤ) = natToString t := by
  rw [intToString, if_neg (not_lt.mpr (Int.natCast_nonneg t))]
  rw [Int.toNat_natCast]

/-! Equation helpers for the cue handlers and further frame lemmas. -/

lemma currentVideo_updVideo (s : LectureState) (v : String) (f : VideoState → VideoState) :
    (updVideo s v f).currentVideo = s.currentVideo := rfl

lemma currentVideo_updOverlay (s : LectureState) (o : String) (f : OverlayState → OverlayState) :
    (updOverlay s o f).currentVideo = s.currentVideo := rfl

lemma currentOverlays_updOverlay (s : LectureState) (o : String)
    (f : OverlayState → OverlayState) :
    (updOverlay s o f).currentOverlays = s.currentOverlays := rfl

lemma currentOverlays_updVideo (s : LectureState) (v : String) (f : VideoState → VideoState) :
    (updVideo s v f).currentOverlays = s.currentOverlays := rfl

lemma currentVideo_videoShow_always (s : LectureState) (v : String) :
    (videoShow s v).currentVideo = some v := by
  by_cases hc : s.currentVideo = some v
  · rw [videoShow_noop s v hc, hc]
  · exact currentVideo_videoShow s v hc

lemma cueEnter_eq_none (s : LectureState) (c : Cue)
    (hgc : getComponent s (resolveDirective c.text).targetName = none) :
    cueEnter s c = none := by
  simp only [cueEnter]
  rw [hgc]

lemma cueEnter_eq_video (s : LectureState) (c : Cue) (tv : String)
    (hgc : getComponent s (resolveDirective c.text).targetName = some (Component.video tv)) :
    cueEnter s c =
      (let s1 := videoShow s tv
       let s2 := updVideo s1 tv fun vs => { vs with fromCue := some c }
       let s3 :=
         match (resolveDirective c.text).targetTime with
         | some t =>
           updVideo s2 tv fun vs => { vs with propTime := t, displayTime := t, elemTime := t }
         | none => s2
       let s4 := if (resolveDirective c.text).play then videoPlay s3 tv false else s3
       some (updVideo s4 c.sourceVideo fun vs =>
         { vs with propTime := c.startTime, displayTime := c.startTime })) := by
  simp only [cueEnter]
  rw [hgc]

lemma cueEnter_eq_overlay0 (s : LectureState) (c : Cue) (tov : String)
    (hgc : getComponent s (resolveDirective c.text).targetName = some (Component.overlay tov)) :
    cueEnter s c =
      (match overlayShow s tov with
       | none => none
       | some s1 =>
         let s2 := updOverlay s1 tov fun ov => { ov with fromCue := some c }
         if jsEqb c.startTime c.endTime then
           some (updVideo (videoPause s2 c.sourceVideo) c.sourceVideo fun vs =>
             { vs with propTime := c.startTime, displayTime := c.startTime })
         else some s2) := by
  simp only [cueEnter]
  rw [hgc]

lemma cueEnter_eq_overlay (s : LectureState) (c : Cue) (tov : String) (s1 : LectureState)
    (hgc : getComponent s (resolveDirective c.text).targetName = some (Component.overlay tov))
    (hshow : overlayShow s tov = some s1) :
    cueEnter s c =
      (let s2 := updOverlay s1 tov fun ov => { ov with fromCue := some c }
       if jsEqb c.startTime c.endTime then
         some (updVideo (videoPause s2 c.sourceVideo) c.sourceVideo fun vs =>
           { vs with propTime := c.startTime, displayTime := c.startTime })
       else some s2) := by
  rw [cueEnter_eq_overlay0 s c tov hgc, hshow]

lemma cueExit_eq_none (s : LectureState) (c : Cue) (hgc : getComponent s c.text = none) :
    cueExit s c = none := by
  simp only [cueExit]
  rw [hgc]

lemma cueExit_eq_video (s : LectureState) (c : Cue) (tv : String)
    (hgc : getComponent s c.text = some (Component.video tv)) :
    cueExit s c = some s := by
  simp only [cueExit]
  rw [hgc]

lemma cueExit_eq_overlay (s : LectureState) (c : Cue) (o : String)
    (hgc : getComponent s c.text = some (Component.overlay o)) :
    cueExit s c = if !jsEqb c.startTime c.endTime then overlayHide s o else some s := by
  simp only [cueExit]
  rw [hgc]

lemma overlayHide_eq (s : LectureState) (o cv : String)
    (hmem : o ∈ s.currentOverlays) (hcv : s.currentVideo = some cv) :
    overlayHide s o = some (showFullBar (updOverlay (popOverlay s o) o fun ov =>
      { ov with visible := false }) cv) := by
  simp only [overlayHide, if_pos hmem]
  have h2 : (updOverlay (popOverlay s o) o fun ov =>
      { ov with visible := false }).currentVideo = some cv := hcv
  rw [h2]

lemma isSome_alookup_updVideo (s : LectureState) (v n : String) (f : VideoState → VideoState) :
    (alookup n (updVideo s v f).videos).isSome = (alookup n s.videos).isSome := by
  rw [alookup_updVideo]
  by_cases h : n = v
  · rw [if_pos h]
    cases alookup n s.videos <;> rfl
  · rw [if_neg h]

lemma isSome_alookup_videoPause (s : LectureState) (v n : String) :
    (alookup n (videoPause s v).videos).isSome = (alookup n s.videos).isSome := by
  simp only [videoPause]
  split
  · rw [setPosition, isSome_alookup_updVideo, showFullBar, isSome_alookup_updVideo,
      isSome_alookup_updVideo]
  · rw [showFullBar, isSome_alookup_updVideo, isSome_alookup_updVideo]

lemma isSome_alookup_videoHide (s : LectureState) (v n : String) :
    (alookup n (videoHide s v).videos).isSome = (alookup n s.videos).isSome := by
  simp only [videoHide]
  split
  · rw [isSome_alookup_updVideo, videos_setCurrentVideo]
    exact isSome_alookup_videoPause s v n
  · rfl

lemma isSome_alookup_videoShow (s : LectureState) (v n : String) :
    (alookup n (videoShow s v).videos).isSome = (alookup n s.videos).isSome := by
  by_cases hc : s.currentVideo = some v
  · rw [videoShow_noop s v hc]
  · rcases hcv : s.currentVideo with _ | w
    · simp only [videoShow, hcv]
      rw [if_neg (show ¬ (none : Option String) = some v from fun h2 => Option.noConfusion h2)]
      rw [isSome_alookup_updVideo, videos_setCurrentVideo]
    · have hwv : ¬ w = v := by
        intro h2
        exact hc (by rw [hcv, h2])
      simp only [videoShow, hcv]
      rw [if_neg (show ¬ some w = some v from fun h2 => hwv (Option.some_inj.mp h2))]
      rw [isSome_alookup_updVideo, videos_setCurrentVideo]
      exact isSome_alookup_videoHide s w n

lemma isSome_alookup_videoPlay (s : LectureState) (v n : String) (r : Bool) :
    (alookup n (videoPlay s v r).videos).isSome = (alookup n s.videos).isSome := by
  rcases hl : alookup v (videoShow s v).videos with _ | vs
  · rw [videoPlay_eq_none s v r hl]
    exact isSome_alookup_videoShow s v n
  · rw [videoPlay_eq s v r vs hl]
    split
    · rw [isSome_alookup_updVideo]
      split
      · rw [setPosition, isSome_alookup_updVideo]
        exact isSome_alookup_videoShow s v n
      · exact isSome_alookup_videoShow s v n
    · exact isSome_alookup_videoShow s v n

/-! Field-level lemmas comparing the documented forms with the parser. -/

lemma digitsNE_parts {d : List Char} (h : digitsNE d = true) :
    d.isEmpty = false ∧ d.all Char.isDigit = true := by
  rw [digitsNE, Bool.and_eq_true, Bool.not_eq_true'] at h
  exact h

lemma eq_nil_of_isEmpty {l : List Char} (h : l.isEmpty = true) : l = [] := by
  cases l
  · rfl
  · exact Bool.noConfusion h

lemma lastFieldOK_implies (p : List Char) (ab : Bool) (h : lastFieldOK p ab = true) :
    fracForm p = true ∧ fracVal p = JsNum.num (specFieldVal p) := by
  rcases hdot : splitOnChar '.' p with _ | ⟨d, _ | ⟨f, _ | ⟨g, r⟩⟩⟩ <;>
    simp only [lastFieldOK, hdot] at h
  · exact absurd h (by decide)
  · obtain ⟨he, ha⟩ := digitsNE_parts h
    simp only [fracForm, fracVal, specFieldVal, hdot]
    refine ⟨ha, ?_⟩
    rw [if_neg (by rw [he]; decide)]
  · rw [Bool.and_eq_true] at h
    obtain ⟨hf, hd⟩ := h
    obtain ⟨hfe, hfa⟩ := digitsNE_parts hf
    have hda : d.all Char.isDigit = true := by
      rcases (Bool.or_eq_true _ _).mp hd with hd1 | hd2
      · exact (digitsNE_parts hd1).2
      · have hde := ((Bool.and_eq_true _ _).mp hd2).2
        rw [eq_nil_of_isEmpty hde]
        rfl
    simp only [fracForm, fracVal, specFieldVal, hdot]
    refine ⟨by rw [hda, hfa]; rfl, ?_⟩
    rw [if_neg (by rw [hfe, Bool.and_false]; decide)]
  · exact absurd h (by decide)

lemma fracVal_nan_iff (p : List Char) (hf : fracForm p = true) :
    (fracVal p = JsNum.nan) ↔ digitlessField p = true := by
  rcases hdot : splitOnChar '.' p with _ | ⟨d, _ | ⟨f, _ | ⟨g, r⟩⟩⟩ <;>
    simp only [fracForm, fracVal, digitlessField, hdot] at hf ⊢
  · exact absurd hf (by decide)
  · by_cases he : d.isEmpty = true
    · simp [he]
    · simp [he]
  · by_cases he : (d.isEmpty && f.isEmpty) = true
    · simp [he]
    · simp [he]
  · exact absurd hf (by decide)

/-! Lemmas for the earlier revision model. -/

lemma videoShow000_noop (s : State000) (v : String) (h : s.currentVideo = some v) :
    videoShow000 s v = s := by
  simp only [videoShow000, if_pos h]

lemma videos_overlayHide000 (s : State000) (o : String) :
    (overlayHide000 s o).videos = s.videos := by
  simp only [overlayHide000]
  split <;> rfl

lemma currentVideo_overlayHide000 (s : State000) (o : String) :
    (overlayHide000 s o).currentVideo = s.currentVideo := by
  simp only [overlayHide000]
  split <;> rfl

lemma doTransition000_eq0 (s : State000) (selfName : String) (opts : DT000Options)
    (cvName : String) (hcv : s.currentVideo = some cvName) :
    doTransition000 s selfName opts =
      (match getComponent000 s (opts.target.getD cvName) with
       | none => none
       | some (Component.video v) =>
         (match alookup v s.videos, alookup cvName s.videos with
          | some vs, some cvs =>
            let time := opts.time.getD vs.currentTime
            let returning := (decide (v = cvName)) && jsEqb time cvs.currentTime
            let s1 := videoShow000 s v
            let s2 := updVideo000 s1 v fun u => { u with currentTime := time }
            let s3 := if opts.hide.getD true then overlayHide000 s2 selfName else s2
            some (if opts.stop.getD false then s3 else videoPlay000 s3 v returning)
          | _, _ => none)
       | some (Component.overlay ovn) =>
         if opts.stop.getD false then
           let s1 := overlayShow000 s ovn
           some (if opts.hide.getD true then overlayHide000 s1 selfName else s1)
         else none) := by
  simp only [doTransition000]
  rw [hcv]

lemma doTransition000_eq1 (s : State000) (selfName : String) (opts : DT000Options)
    (cvName v : String) (hcv : s.currentVideo = some cvName)
    (hgc : getComponent000 s (opts.target.getD cvName) = some (Component.video v)) :
    doTransition000 s selfName opts =
      (match alookup v s.videos, alookup cvName s.videos with
       | some vs, some cvs =>
         let time := opts.time.getD vs.currentTime
         let returning := (decide (v = cvName)) && jsEqb time cvs.currentTime
         let s1 := videoShow000 s v
         let s2 := updVideo000 s1 v fun u => { u with currentTime := time }
         let s3 := if opts.hide.getD true then overlayHide000 s2 selfName else s2
         some (if opts.stop.getD false then s3 else videoPlay000 s3 v returning)
       | _, _ => none) := by
  rw [doTransition000_eq0 s selfName opts cvName hcv, hgc]

lemma doTransition000_eq (s : State000) (selfName : String) (opts : DT000Options)
    (cvName v : String) (vs cvs : Video000)
    (hcv : s.currentVideo = some cvName)
    (hgc : getComponent000 s (opts.target.getD cvName) = some (Component.video v))
    (hv : alookup v s.videos = some vs) (hc2 : alookup cvName s.videos = some cvs) :
    doTransition000 s selfName opts =
      (let time := opts.time.getD vs.currentTime
       let returning := (decide (v = cvName)) && jsEqb time cvs.currentTime
       let s1 := videoShow000 s v
       let s2 := updVideo000 s1 v fun u => { u with currentTime := time }
       let s3 := if opts.hide.getD true then overlayHide000 s2 selfName else s2
       some (if opts.stop.getD false then s3 else videoPlay000 s3 v returning)) := by
  rw [doTransition000_eq1 s selfName opts cvName v hcv hgc, hv, hc2]

lemma parseSecondsL_long (l p1 p2 p3 p4 : List Char) (r : List (List Char))
    (h : splitOnChar ':' l = p1 :: p2 :: p3 :: p4 :: r) :
    parseSecondsL l = none := by
  rw [parseSecondsL, h]

lemma jsAdd_num_eq_nan (x : JsNum) (b : ℚ) : jsAdd x (JsNum.num b) = JsNum.nan ↔ x = JsNum.nan := by
  cases x <;> simp [jsAdd]

lemma doTransition_eq0 (s : LectureState) (selfName : String) (co ms : DTOptions)
    (tname : String)
    (htgt : (if truthyOptStr (mergeDT co ms).target then (mergeDT co ms).target
      else s.currentVideo) = some tname) :
    doTransition s selfName co ms =
      (match getComponent s tname with
       | none => none
       | some (Component.video v) =>
         match alookup v s.videos with
         | none => none
         | some vs =>
           let time := if truthyOptNum (mergeDT co ms).time then (mergeDT co ms).time.getD JsNum.nan
             else vs.storedTime
           let returning := (s.currentVideo == some v) && jsEqb time vs.storedTime
           let s2 := updVideo (videoShow s v) v fun u => { u with storedTime := time }
           match (if truthyOptBool (mergeDT co ms).hide then overlayHide s2 selfName
             else some s2) with
           | none => none
           | some s3 => some (if truthyOptBool (mergeDT co ms).stop then s3
             else videoPlay s3 v returning)
       | some (Component.overlay ovn) =>
         if truthyOptNum (mergeDT co ms).time then
           match overlayShow s ovn with
           | none => none
           | some s1 =>
             match (if truthyOptBool (mergeDT co ms).hide then overlayHide s1 selfName
               else some s1) with
             | none => none
             | some s2 => if truthyOptBool (mergeDT co ms).stop then some s2 else none
         else none) := by
  simp only [doTransition]
  rw [htgt]

lemma doTransition_eq1 (s : LectureState) (selfName : String) (co ms : DTOptions)
    (v : String)
    (htgt : (if truthyOptStr (mergeDT co ms).target then (mergeDT co ms).target
      else s.currentVideo) = some v)
    (hgc : getComponent s v = some (Component.video v)) :
    doTransition s selfName co ms =
      (match alookup v s.videos with
       | none => none
       | some vs =>
         let time := if truthyOptNum (mergeDT co ms).time then (mergeDT co ms).time.getD JsNum.nan
           else vs.storedTime
         let returning := (s.currentVideo == some v) && jsEqb time vs.storedTime
         let s2 := updVideo (videoShow s v) v fun u => { u with storedTime := time }
         match (if truthyOptBool (mergeDT co ms).hide then overlayHide s2 selfName
           else some s2) with
         | none => none
         | some s3 => some (if truthyOptBool (mergeDT co ms).stop then s3
           else videoPlay s3 v returning)) := by
  rw [doTransition_eq0 s selfName co ms v htgt, hgc]

lemma doTransition_eq (s : LectureState) (selfName : String) (co ms : DTOptions)
    (v : String) (vs : VideoState)
    (htgt : (if truthyOptStr (mergeDT co ms).target then (mergeDT co ms).target
      else s.currentVideo) = some v)
    (hgc : getComponent s v = some (Component.video v))
    (hv : alookup v s.videos = some vs) :
    doTransition s selfName co ms =
      (let time := if truthyOptNum (mergeDT co ms).time then (mergeDT co ms).time.getD JsNum.nan
         else vs.storedTime
       let returning := (s.currentVideo == some v) && jsEqb time vs.storedTime
       let s2 := updVideo (videoShow s v) v fun u => { u with storedTime := time }
       match (if truthyOptBool (mergeDT co ms).hide then overlayHide s2 selfName
         else some s2) with
       | none => none
       | some s3 => some (if truthyOptBool (mergeDT co ms).stop then s3
         else videoPlay s3 v returning)) := by
  rw [doTransition_eq1 s selfName co ms v htgt hgc, hv]

lemma overlayHide_maps (s : LectureState) (o cv : String) (hcv : s.currentVideo = some cv) :
    ∃ t, overlayHide s o = some t ∧ t.currentVideo = some cv ∧
      (∀ n, (alookup n t.videos).map VideoState.storedTime
        = (alookup n s.videos).map VideoState.storedTime) ∧
      (∀ n, (alookup n t.videos).map VideoState.elemTime
        = (alookup n s.videos).map VideoState.elemTime) ∧
      (∀ n, (alookup n t.videos).map VideoState.paused
        = (alookup n s.videos).map VideoState.paused) := by
  by_cases hmem : o ∈ s.currentOverlays
  · rw [overlayHide_eq s o cv hmem hcv]
    refine ⟨_, rfl, hcv, ?_, ?_, ?_⟩
    · intro n
      exact alookup_map_field_updVideo _ cv n _ VideoState.storedTime fun u => by split <;> rfl
    · intro n
      exact alookup_map_field_updVideo _ cv n _ VideoState.elemTime fun u => by split <;> rfl
    · intro n
      exact alookup_map_field_updVideo _ cv n _ VideoState.paused fun u => by split <;> rfl
  · rw [show overlayHide s o = some s from by simp only [overlayHide, if_neg hmem]]
    exact ⟨s, rfl, hcv, fun n => rfl, fun n => rfl, fun n => rfl⟩

lemma videoPlay_true_maps {β : Type} (s : LectureState) (v : String) (F : VideoState → β)
    (hc : s.currentVideo = some v)
    (hF : ∀ u, F { u with paused := false, pauseButton := true } = F u) :
    ∀ n, (alookup n (videoPlay s v true).videos).map F = (alookup n s.videos).map F := by
  intro n
  simp only [videoPlay]
  rw [videoShow_noop s v hc]
  rcases hl : alookup v s.videos with _ | vs
  · rfl
  · show (alookup n (if vs.paused && !showingOverlay s then
        updVideo (if !true then setPosition s v vs.storedTime else s) v
          (fun u => { u with paused := false, pauseButton := true })
      else s).videos).map F = (alookup n s.videos).map F
    by_cases hcond : (vs.paused && !showingOverlay s) = true
    · rw [if_pos hcond]
      exact alookup_map_field_updVideo s v n _ F hF
    · rw [if_neg hcond]

lemma videoPlay000_eq (s : State000) (v : String) (r : Bool) (vs : Video000)
    (hc : s.currentVideo = some v) (hv : alookup v s.videos = some vs) :
    videoPlay000 s v r =
      (if vs.paused then
        updVideo000 (if !r then updVideo000 s v fun u => { u with elemTime := u.currentTime }
          else s) v fun u => { u with paused := false }
      else s) := by
  simp only [videoPlay000]
  rw [videoShow000_noop s v hc, hv]

/-! Claim theorems. -/

/-- Claim C6: for every non-negative integer number of seconds s, the
parse of the formatted string recovers exactly s, that is
parseSeconds (formatSeconds s) = s. -/
theorem claim_C6_time_roundtrip (n : ℕ) :
    parseSeconds (formatSeconds n) = some (JsNum.num (n : ℚ)) :=
  parseSeconds_formatSeconds n

/-- Claim C7 counterexample: the empty string matches none of the
documented forms, yet parseSeconds returns NaN rather than the explicit
no-value, and NaN then passes the typeof number test of the dispatcher;
so not every malformed input yields the explicit no-value. -/
theorem claim_C7_counterexample :
    specWellFormed ("").data = false ∧ parseSeconds "" = some JsNum.nan ∧
      some JsNum.nan ≠ (none : Option JsNum) := by
  refine ⟨by decide, by decide, by decide⟩

/-- Claim C7 as amended: parseSeconds never throws; a string of the
documented forms parses to its denoted value; a string failing even the
relaxed regular-expression pattern yields the explicit no-value; and the
result is NaN exactly for strings matching the relaxed pattern whose
seconds field contains no digit (such as the empty string, a bare dot, or
a trailing colon), NaN being distinct from the explicit no-value. -/
theorem claim_C7_parseSeconds_amended (s : String) :
    (specWellFormed s.data = true → parseSeconds s = some (JsNum.num (specValue s.data))) ∧
    (laxPattern s.data = false → parseSeconds s = none) ∧
    (parseSeconds s = some JsNum.nan ↔
      laxPattern s.data = true ∧ lastFieldDigitless s.data = true) := by
  rcases hsplit : splitOnChar ':' s.data with _ | ⟨p1, _ | ⟨p2, _ | ⟨p3, _ | ⟨p4, r⟩⟩⟩⟩
  · exact absurd hsplit (splitOnChar_ne_nil ':' s.data)
  · have hval : specValue s.data = specFieldVal p1 := by
      simp only [specValue, hsplit]
    have hlax : laxPattern s.data = fracForm p1 := by
      simp only [laxPattern, hsplit]
    have hlfd : lastFieldDigitless s.data = digitlessField p1 := by
      simp only [lastFieldDigitless, hsplit]
      rfl
    refine ⟨?_, ?_, ?_⟩
    · intro h
      have h2 : lastFieldOK p1 true = true := by
        simpa only [specWellFormed, hsplit] using h
      obtain ⟨hf, hv⟩ := lastFieldOK_implies p1 true h2
      rw [parseSeconds, parseSecondsL_single _ _ hsplit, if_pos hf, hv, hval]
    · intro h
      have h2 : fracForm p1 = false := by
        simpa only [laxPattern, hsplit] using h
      rw [parseSeconds, parseSecondsL_single _ _ hsplit, if_neg (by rw [h2]; decide)]
    · rw [parseSeconds, parseSecondsL_single _ _ hsplit, hlax, hlfd]
      by_cases hf : fracForm p1 = true
      · rw [if_pos hf]
        constructor
        · intro he
          exact ⟨hf, (fracVal_nan_iff p1 hf).mp (Option.some_inj.mp he)⟩
        · intro hpair
          rw [(fracVal_nan_iff p1 hf).mpr hpair.2]
      · rw [if_neg hf]
        constructor
        · intro he
          exact Option.noConfusion he
        · intro hpair
          exact absurd hpair.1 hf
  · have hval : specValue s.data = 60 * digitsVal p1 + specFieldVal p2 := by
      simp only [specValue, hsplit]
    have hlax : laxPattern s.data = (digitsNE p1 && fracForm p2) := by
      simp only [laxPattern, hsplit]
    have hlfd : lastFieldDigitless s.data = digitlessField p2 := by
      simp only [lastFieldDigitless, hsplit]
      rfl
    refine ⟨?_, ?_, ?_⟩
    · intro h
      have h2 : (digitsNE p1 && lastFieldOK p2 false) = true := by
        simpa only [specWellFormed, hsplit] using h
      obtain ⟨h1, hok⟩ := (Bool.and_eq_true _ _).mp h2
      obtain ⟨hf, hv⟩ := lastFieldOK_implies p2 false hok
      rw [parseSeconds, parseSecondsL_pair _ _ _ hsplit,
        if_pos (by rw [h1, hf]; rfl), hv, hval]
      simp only [jsAdd, Option.some_inj, JsNum.num.injEq]
      ring
    · intro h
      have h2 : (digitsNE p1 && fracForm p2) = false := by
        simpa only [laxPattern, hsplit] using h
      rw [parseSeconds, parseSecondsL_pair _ _ _ hsplit, if_neg (by rw [h2]; decide)]
    · rw [parseSeconds, parseSecondsL_pair _ _ _ hsplit, hlax, hlfd]
      by_cases hcond : (digitsNE p1 && fracForm p2) = true
      · have hf : fracForm p2 = true := ((Bool.and_eq_true _ _).mp hcond).2
        rw [if_pos hcond]
        constructor
        · intro he
          have h3 := Option.some_inj.mp he
          rw [jsAdd_num_eq_nan] at h3
          exact ⟨hcond, (fracVal_nan_iff p2 hf).mp h3⟩
        · intro hpair
          rw [(fracVal_nan_iff p2 hf).mpr hpair.2]
          rfl
      · rw [if_neg hcond]
        constructor
        · intro he
          exact Option.noConfusion he
        · intro hpair
          exact absurd hpair.1 hcond
  · have hval : specValue s.data
        = 3600 * digitsVal p1 + 60 * digitsVal p2 + specFieldVal p3 := by
      simp only [specValue, hsplit]
    have hlax : laxPattern s.data = (digitsNE p1 && digitsNE p2 && fracForm p3) := by
      simp only [laxPattern, hsplit]
    have hlfd : lastFieldDigitless s.data = digitlessField p3 := by
      simp only [lastFieldDigitless, hsplit]
      rfl
    refine ⟨?_, ?_, ?_⟩
    · intro h
      have h2 : (digitsNE p1 && digitsNE p2 && lastFieldOK p3 false) = true := by
        simpa only [specWellFormed, hsplit] using h
      obtain ⟨h12, hok⟩ := (Bool.and_eq_true _ _).mp h2
      obtain ⟨h1, h2b⟩ := (Bool.and_eq_true _ _).mp h12
      obtain ⟨hf, hv⟩ := lastFieldOK_implies p3 false hok
      rw [parseSeconds, parseSecondsL_triple _ _ _ _ hsplit,
        if_pos (by rw [h1, h2b, hf]; rfl), hv, hval]
      simp only [jsAdd, Option.some_inj, JsNum.num.injEq]
      ring
    · intro h
      have h2 : (digitsNE p1 && digitsNE p2 && fracForm p3) = false := by
        simpa only [laxPattern, hsplit] using h
      rw [parseSeconds, parseSecondsL_triple _ _ _ _ hsplit, if_neg (by rw [h2]; decide)]
    · rw [parseSeconds, parseSecondsL_triple _ _ _ _ hsplit, hlax, hlfd]
      by_cases hcond : (digitsNE p1 && digitsNE p2 && fracForm p3) = true
      · have hf : fracForm p3 = true := ((Bool.and_eq_true _ _).mp hcond).2
        rw [if_pos hcond]
        constructor
        · intro he
          have h3 := Option.some_inj.mp he
          rw [jsAdd_num_eq_nan, jsAdd_num_eq_nan] at h3
          exact ⟨hcond, (fracVal_nan_iff p3 hf).mp h3⟩
        · intro hpair
          rw [(fracVal_nan_iff p3 hf).mpr hpair.2]
          rfl
      · rw [if_neg hcond]
        constructor
        · intro he
          exact Option.noConfusion he
        · intro hpair
          exact absurd hpair.1 hcond
  · have h0 : parseSeconds s = none := by
      rw [parseSeconds]
      exact parseSecondsL_long _ _ _ _ _ _ hsplit
    refine ⟨?_, fun _ => h0, ?_⟩
    · intro h
      have h2 : specWellFormed s.data = false := by
        simp only [specWellFormed, hsplit]
      rw [h2] at h
      exact absurd h (by decide)
    · rw [h0]
      constructor
      · intro he
        exact Option.noConfusion he
      · intro hpair
        have h2 : False := by
          simp only [laxPattern, hsplit] at hpair
          exact Bool.noConfusion hpair.1
        exact absurd h2 (fun hf => hf)

/-- Claim C7 witness: a concrete well-formed input parsed through the
amended theorem. -/
theorem claim_C7_witness :
    specWellFormed ("1:05").data = true ∧
      parseSeconds "1:05" = some (JsNum.num (specValue ("1:05").data)) :=
  ⟨by decide, (claim_C7_parseSeconds_amended "1:05").1 (by decide)⟩

/-- Claim C4, code defect: addTransition merges its defaults from
video.options.transition, but video is an unbound identifier in that
scope and the module runs in strict mode, so with no page-level binding
named video every call throws a ReferenceError before any cue text is
produced; under the intended binding with the shipped defaults the
produced text is exactly the target name when the caller sets neither
time nor play. -/
theorem claim_C4_addTransition_unbound_video :
    addTransitionCue none "v" "w" 10 { time := none, play := none, duration := none } = none ∧
    (addTransitionCue (some defaultVideoTransition) "v" "w" 10
        { time := none, play := none, duration := none }).map Cue.text = some "w" := by
  exact ⟨rfl, by decide⟩

/-- Claim C3 counterexample: the claim quantifies over every target name
and every time value, but a name containing a space shifts the tokens so
the dispatch resolves play as true where the builder was told false, and
a negative time serializes to a token parseSeconds rejects so the
resolved target time is absent rather than the given value. -/
theorem claim_C3_counterexample :
    ((addTransitionCue (some defaultVideoTransition) "src" "a b" 10
        { time := some 5, play := some false, duration := none }).map
      (fun c => (resolveDirective c.text).play) = some true) ∧
    ((addTransitionCue (some defaultVideoTransition) "src" "x" 10
        { time := some (-1), play := some false, duration := none }).map
      (fun c => (resolveDirective c.text).targetTime) = some none) := by
  exact ⟨by decide, by decide⟩

/-- Claim C3 as amended: for target names without spaces and non-negative
integer times, with the defaults merge source being the shipped
transition defaults (the source reads it through an unbound identifier,
see C4): a transition built with time t and play false resolves at
dispatch to target time t and play false, and one built with both
omitted resolves to no target time and play true. -/
theorem claim_C3_directive_roundtrip (name src : String) (t : ℕ) (tm : ℚ)
    (hsp : ' ' ∉ name.data) :
    ((addTransitionCue (some defaultVideoTransition) src name tm
        { time := some (t : ℤ), play := some false, duration := none }).map
      (fun c => resolveDirective c.text)
      = some { targetName := name, targetTime := some (JsNum.num (t : ℚ)), play := false }) ∧
    ((addTransitionCue (some defaultVideoTransition) src name tm
        { time := none, play := none, duration := none }).map
      (fun c => resolveDirective c.text)
      = some { targetName := name, targetTime := none, play := true }) := by
  constructor
  · have hmap : addTransitionCue (some defaultVideoTransition) src name tm
        { time := some (t : ℤ), play := some false, duration := none }
        = some { startTime := JsNum.num tm, endTime := JsNum.num (tm + 0),
                 text := (name ++ (" " ++ intToString (t : ℤ))) ++ " stop",
                 sourceVideo := src } := rfl
    rw [hmap, Option.map_some']
    have htext : (name ++ (" " ++ intToString (t : ℤ))) ++ " stop"
        = (name ++ (" " ++ natToString t)) ++ " stop" := by
      rw [intToString_natCast]
    rw [htext]
    have hd : ((name ++ (" " ++ natToString t)) ++ " stop").data
        = name.data ++ ' ' :: ((natToString t).data ++ ' ' :: ("stop" : String).data) := by
      simp [data_append, List.append_assoc]
    have htoks : directiveTokens ((name ++ (" " ++ natToString t)) ++ " stop")
        = [name, natToString t, "stop"] :=
      directiveTokens_triple _ name.data (natToString t).data ("stop" : String).data hd hsp
        (space_not_mem_natToString t) (by decide)
    rw [resolveDirective_of_tokens _ _ htoks]
    simp only [Option.some_inj]
    rw [show ([name, natToString t, "stop"] : List String)[1]? = some (natToString t) from rfl]
    rw [resolveTime_natToString]
    rfl
  · have hmap : addTransitionCue (some defaultVideoTransition) src name tm
        { time := none, play := none, duration := none }
        = some { startTime := JsNum.num tm, endTime := JsNum.num (tm + 0),
                 text := (name ++ "") ++ "", sourceVideo := src } := rfl
    rw [hmap, Option.map_some']
    have htext : (name ++ "") ++ "" = name := string_eq_of_data (by simp [data_append])
    rw [htext, resolveDirective_single name hsp]

/-- Claim C3 witness: the amended round-trip at a concrete space-free
name and concrete integer time. -/
theorem claim_C3_witness :
    (' ' ∉ ("a" : String).data) ∧
    ((addTransitionCue (some defaultVideoTransition) "s" "a" 10
        { time := some ((5 : ℕ) : ℤ), play := some false, duration := none }).map
      (fun c => resolveDirective c.text)
      = some { targetName := "a", targetTime := some (JsNum.num ((5 : ℕ) : ℚ)),
               play := false }) := by
  exact ⟨by decide, (claim_C3_directive_roundtrip "a" "s" 5 10 (by decide)).1⟩

/-- Claim C9: a transition built with play false and no time serializes to
the two tokens name stop; at dispatch the token stop occupies the time
position, parseSeconds rejects it so no seek occurs, the third token is
absent and the resolved play flag is true, so a Video target ends up
playing even though the author requested stop. -/
theorem claim_C9_stop_token_misparse (s : LectureState) (vt src : String) (vs : VideoState)
    (tm : ℚ) (t0 t1 : JsNum)
    (hsp : ' ' ∉ vt.data) (hv : alookup vt s.videos = some vs)
    (ho : showingOverlay s = false) :
    ((addTransitionCue (some defaultVideoTransition) src vt tm
        { time := none, play := some false, duration := none }).map Cue.text
      = some (vt ++ " stop")) ∧
    resolveDirective (vt ++ " stop")
      = { targetName := vt, targetTime := none, play := true } ∧
    (∃ s2, cueEnter s { startTime := t0, endTime := t1, text := vt ++ " stop", sourceVideo := src } = some s2 ∧
      (alookup vt s2.videos).map VideoState.paused = some false) := by
  have hd : (vt ++ " stop").data = vt.data ++ ' ' :: ("stop" : String).data := by
    rw [data_append]
  have htoks : directiveTokens (vt ++ " stop") = [vt, "stop"] :=
    directiveTokens_pair _ vt.data ("stop" : String).data hd hsp (by decide)
  have hdir : resolveDirective (vt ++ " stop")
      = { targetName := vt, targetTime := none, play := true } := by
    rw [resolveDirective_of_tokens _ _ htoks]
    rw [show ([vt, "stop"] : List String)[1]? = some "stop" from rfl]
    rw [show resolveTime (some "stop") = none from by decide]
    rfl
  refine ⟨?_, hdir, ?_⟩
  · have hmap : addTransitionCue (some defaultVideoTransition) src vt tm
        { time := none, play := some false, duration := none }
        = some { startTime := JsNum.num tm, endTime := JsNum.num (tm + 0),
                 text := (vt ++ "") ++ " stop", sourceVideo := src } := rfl
    rw [hmap, Option.map_some']
    have : (vt ++ "") ++ " stop" = vt ++ " stop" :=
      string_eq_of_data (by simp [data_append])
    rw [this]
  · have hgc : getComponent s (resolveDirective ({ startTime := t0, endTime := t1, text := vt ++ " stop", sourceVideo := src } : Cue).text).targetName
        = some (Component.video vt) := by
      rw [show ({ startTime := t0, endTime := t1, text := vt ++ " stop", sourceVideo := src } : Cue).text = vt ++ " stop" from rfl, hdir]
      simp [getComponent, hv]
    rw [cueEnter_eq_video _ _ vt hgc]
    simp only [hdir]
    obtain ⟨u1, hl1, hcur1⟩ := alookup_videoShow_self s vt vs hv
    have hl2 : alookup vt (updVideo (videoShow s vt) vt fun w =>
        { w with fromCue := some { startTime := t0, endTime := t1, text := vt ++ " stop", sourceVideo := src } }).videos
        = some { u1 with fromCue := some { startTime := t0, endTime := t1, text := vt ++ " stop", sourceVideo := src } } := by
      rw [alookup_updVideo, if_pos rfl, hl1, Option.map_some']
    have hc2 : (updVideo (videoShow s vt) vt fun w =>
        { w with fromCue := some { startTime := t0, endTime := t1, text := vt ++ " stop", sourceVideo := src } }).currentVideo = some vt := by
      rw [currentVideo_updVideo]
      exact hcur1
    have ho2 : showingOverlay (updVideo (videoShow s vt) vt fun w =>
        { w with fromCue := some { startTime := t0, endTime := t1, text := vt ++ " stop", sourceVideo := src } }) = false := by
      rw [showingOverlay_updVideo, showingOverlay_videoShow]
      exact ho
    obtain ⟨u, hu, hpf⟩ := videoPlay_starts _ vt false _ hc2 ho2 hl2
    rw [if_pos trivial]
    refine ⟨_, rfl, ?_⟩
    rw [alookup_map_field_updVideo _ src vt
      (fun vs => { vs with propTime := t0, displayTime := t0 }) VideoState.paused (fun w => rfl)]
    rw [hu, Option.map_some', hpf]

/-- Claim C9 witness: the misparse at a concrete registry. -/
theorem claim_C9_witness :
    (' ' ∉ ("B" : String).data) ∧ alookup "B" wState.videos = some wVideoB ∧
      showingOverlay wState = false ∧
    (∃ s2, cueEnter wState { startTime := JsNum.num 10, endTime := JsNum.num 10, text := "B" ++ " stop", sourceVideo := "A" } = some s2 ∧
      (alookup "B" s2.videos).map VideoState.paused = some false) := by
  exact ⟨by decide, by decide, by decide,
    (claim_C9_stop_token_misparse wState "B" "A" wVideoB 10 (JsNum.num 10) (JsNum.num 10)
      (by decide) (by decide) (by decide)).2.2⟩

/-- The concrete witness registry satisfies the visibility invariant. -/
lemma videoInv_wState : videoInv wState := by
  intro n vs h hv
  by_cases hA : "A" = n
  · rw [← hA]
    rfl
  · by_cases hB : "B" = n
    · exfalso
      have h2 : alookup n wState.videos = some wVideoB := by
        show (if "A" = n then some wVideoA else if "B" = n then some wVideoB else none)
          = some wVideoB
        rw [if_neg hA, if_pos hB]
      rw [h] at h2
      have hvs : vs = wVideoB := Option.some_inj.mp h2
      rw [hvs] at hv
      exact absurd hv (by decide)
    · exfalso
      have h2 : alookup n wState.videos = none := by
        show (if "A" = n then some wVideoA else if "B" = n then some wVideoB else none) = none
        rw [if_neg hA, if_neg hB]
      rw [h2] at h
      exact Option.noConfusion h

/-- Claim C1: currentVideo holds at most one reference, every sequence of
show calls preserves the invariant that only the current video is flagged
visible (so at most one video is visible after each call), and when a
show call changes the current video the previously current video has
been paused and hidden while the caller becomes current. -/
theorem claim_C1_at_most_one_current (s : LectureState) (hInv : videoInv s) :
    (∀ calls : List String, videoInv (applyShows s calls)) ∧
    (∀ calls n1 n2 u1 u2,
      alookup n1 (applyShows s calls).videos = some u1 →
      alookup n2 (applyShows s calls).videos = some u2 →
      u1.visible = true → u2.visible = true → n1 = n2) ∧
    (∀ v w ws, s.currentVideo = some w → ¬ w = v → alookup w s.videos = some ws →
      (videoShow s v).currentVideo = some v ∧
      ∃ u, alookup w (videoShow s v).videos = some u ∧
        u.paused = true ∧ u.visible = false) := by
  refine ⟨fun calls => videoInv_applyShows s calls hInv, ?_, ?_⟩
  · intro calls n1 n2 u1 u2 h1 h2 hv1 hv2
    have e1 := videoInv_applyShows s calls hInv n1 u1 h1 hv1
    have e2 := videoInv_applyShows s calls hInv n2 u2 h2 hv2
    rw [e1] at e2
    exact Option.some_inj.mp e2
  · intro v w ws hcw hwv hws
    have hcv : ¬ s.currentVideo = some v := by
      rw [hcw]
      intro h2
      exact hwv (Option.some_inj.mp h2)
    refine ⟨currentVideo_videoShow s v hcv, ?_⟩
    rw [alookup_videoShow_of_ne_some s v w w hcw hwv hwv]
    exact alookup_videoHide_self s w ws hcw hws

/-- Claim C1 witness: showing the hidden video B in the concrete registry
makes B current while the previously current A ends up paused and
hidden. -/
theorem claim_C1_witness :
    videoInv wState ∧
    ((videoShow wState "B").currentVideo = some "B" ∧
      ∃ u, alookup "A" (videoShow wState "B").videos = some u ∧
        u.paused = true ∧ u.visible = false) :=
  ⟨videoInv_wState,
    (claim_C1_at_most_one_current wState videoInv_wState).2.2 "B" "A" wVideoA
      (by decide) (by decide) (by decide)⟩

/-- Claim C2: entering an instantaneous cue that shows an Overlay leaves
the source Video paused with the overlay stacked and blocking, play is a
no-op on the current video whenever a blocking overlay is showing, and
once no blocking overlay is showing play does start the current video. -/
theorem claim_C2_overlay_blocks_resume (s : LectureState) (cv o : String) (c : Cue)
    (vs : VideoState) (ov : OverlayState)
    (hcw : s.currentVideo = some cv) (hv : alookup cv s.videos = some vs)
    (hov : alookup o s.overlays = some ov)
    (hgc : getComponent s (resolveDirective c.text).targetName = some (Component.overlay o))
    (hsrc : c.sourceVideo = cv) (hinst : jsEqb c.startTime c.endTime = true) :
    (∃ s2, cueEnter s c = some s2 ∧ s2.currentVideo = some cv ∧
      showingOverlay s2 = true ∧ o ∈ s2.currentOverlays ∧
      (alookup cv s2.videos).map VideoState.paused = some true) ∧
    (∀ t r, t.currentVideo = some cv → showingOverlay t = true → videoPlay t cv r = t) ∧
    (∀ t r u, t.currentVideo = some cv → showingOverlay t = false →
      alookup cv t.videos = some u →
      ∃ w, alookup cv (videoPlay t cv r).videos = some w ∧ w.paused = false) := by
  refine ⟨?_, fun t r h1 h2 => videoPlay_noop_of_showingOverlay t cv r h1 h2,
    fun t r u h1 h2 h3 => videoPlay_starts t cv r u h1 h2 h3⟩
  obtain ⟨s1, hshow, hmem1, hcur1, hpaused1, hdisp1, hovl1⟩ := overlayShow_char s o cv hcw
  rw [cueEnter_eq_overlay s c o s1 hgc hshow]
  simp only [hinst]
  rw [if_pos trivial, hsrc]
  refine ⟨_, rfl, ?_, ?_, ?_, ?_⟩
  · rw [currentVideo_updVideo, currentVideo_videoPause, currentVideo_updOverlay, hcur1]
    exact hcw
  · have hmem2 : o ∈ (updOverlay s1 o fun w => { w with fromCue := some c }).currentOverlays := by
      rw [currentOverlays_updOverlay]
      exact hmem1
    have hy : ∃ ovy, alookup o s1.overlays = some ovy := by
      rcases hovl1 o with h | ⟨ov2, hov2, h2⟩
      · exact ⟨ov, by rw [h]; exact hov⟩
      · exact ⟨_, h2⟩
    obtain ⟨ovy, hovy⟩ := hy
    have hovx : alookup o (updOverlay s1 o fun w =>
        { w with fromCue := some c }).overlays = some { ovy with fromCue := some c } := by
      rw [alookup_updOverlay, if_pos rfl, hovy, Option.map_some']
    rw [showingOverlay_updVideo, showingOverlay_videoPause]
    exact showingOverlay_true_of _ o { ovy with fromCue := some c } c hmem2 hovx rfl hinst
  · rw [currentOverlays_updVideo, currentOverlays_videoPause, currentOverlays_updOverlay]
    exact hmem1
  · rw [alookup_map_field_updVideo _ cv cv
      (fun w => { w with propTime := c.startTime, displayTime := c.startTime })
      VideoState.paused (fun w => rfl)]
    have hp := hpaused1 cv
    rw [hv, Option.map_some'] at hp
    rcases hl1 : alookup cv s1.videos with _ | u1
    · exfalso
      rw [hl1, Option.map_none'] at hp
      exact Option.noConfusion hp
    · have hS2v : alookup cv (updOverlay s1 o fun w =>
          { w with fromCue := some c }).videos = some u1 := by
        rw [videos_updOverlay]
        exact hl1
      obtain ⟨u, hu, hup, _, _⟩ := alookup_videoPause_self _ cv u1 hS2v
      rw [hu, Option.map_some', hup]

/-- Claim C2 witness: the instantaneous overlay cue at the concrete
registry pauses the source video and blocks it. -/
theorem claim_C2_witness :
    wState.currentVideo = some "A" ∧ alookup "A" wState.videos = some wVideoA ∧
    alookup "O" wState.overlays = some wOverlayO ∧
    getComponent wState (resolveDirective wCueInst.text).targetName
      = some (Component.overlay "O") ∧
    wCueInst.sourceVideo = "A" ∧ jsEqb wCueInst.startTime wCueInst.endTime = true ∧
    (∃ s2, cueEnter wState wCueInst = some s2 ∧ s2.currentVideo = some "A" ∧
      showingOverlay s2 = true ∧ "O" ∈ s2.currentOverlays ∧
      (alookup "A" s2.videos).map VideoState.paused = some true) :=
  ⟨by decide, by decide, by decide, by decide, by decide, by decide,
    (claim_C2_overlay_blocks_resume wState "A" "O" wCueInst wVideoA wOverlayO
      (by decide) (by decide) (by decide) (by decide) (by decide) (by decide)).1⟩

/-- Claim C5 counterexample: a spanning cue whose directive text carries a
time token still targets an Overlay at dispatch, but on interval exit the
handler resolves the component with the full cue text, the lookup fails
and the constructor access throws instead of hiding the overlay. -/
theorem claim_C5_counterexample :
    (resolveDirective "O 5").targetName = "O" ∧
    getComponent wStateBlocked "O" = some (Component.overlay "O") ∧
    "O" ∈ wStateBlocked.currentOverlays ∧
    cueExit wStateBlocked { startTime := JsNum.num 20, endTime := JsNum.num 25, text := "O 5", sourceVideo := "A" } = none := by
  exact ⟨by decide, by decide, by decide, by decide⟩

/-- Claim C5 as amended: for a spanning cue whose directive text is
exactly the overlay name, entry stacks the overlay while leaving the
source video paused-flag untouched, interval exit removes the overlay
from the shown set and clears its visibility, and exit of an
instantaneous cue never hides its target. -/
theorem claim_C5_dynamic_overlay (s : LectureState) (cv o : String) (c : Cue)
    (vs : VideoState) (ov : OverlayState)
    (hcw : s.currentVideo = some cv)
    (hv : alookup cv s.videos = some vs)
    (hov : alookup o s.overlays = some ov)
    (htext : c.text = o)
    (hgc : getComponent s o = some (Component.overlay o))
    (hsp : ' ' ∉ o.data)
    (hni : jsEqb c.startTime c.endTime = false) :
    (∃ s2, cueEnter s c = some s2 ∧ o ∈ s2.currentOverlays ∧
      (alookup cv s2.videos).map VideoState.paused = some vs.paused) ∧
    (∀ t, getComponent t c.text = some (Component.overlay o) → t.currentVideo = some cv →
      o ∈ t.currentOverlays →
      ∃ t2, cueExit t c = some t2 ∧ o ∉ t2.currentOverlays ∧
        (∀ ovt, alookup o t.overlays = some ovt →
          ∃ ov2, alookup o t2.overlays = some ov2 ∧ ov2.visible = false)) ∧
    (∀ t (c2 : Cue) o2, jsEqb c2.startTime c2.endTime = true →
      getComponent t c2.text = some (Component.overlay o2) → cueExit t c2 = some t) := by
  refine ⟨?_, ?_, ?_⟩
  · have hgc2 : getComponent s (resolveDirective c.text).targetName
        = some (Component.overlay o) := by
      rw [htext, resolveDirective_single o hsp]
      exact hgc
    obtain ⟨s1, hshow, hmem1, hcur1, hpaused1, hdisp1, hovl1⟩ := overlayShow_char s o cv hcw
    rw [cueEnter_eq_overlay s c o s1 hgc2 hshow]
    simp only [hni, Bool.false_eq_true, if_false]
    refine ⟨_, rfl, ?_, ?_⟩
    · rw [currentOverlays_updOverlay]
      exact hmem1
    · rw [videos_updOverlay, hpaused1 cv, hv, Option.map_some']
  · intro t hgct hcvt hmemt
    rw [cueExit_eq_overlay t c o hgct, hni]
    rw [if_pos (show (!false) = true from rfl)]
    rw [overlayHide_eq t o cv hmemt hcvt]
    refine ⟨_, rfl, ?_, ?_⟩
    · intro hmem2
      have hmem3 : o ∈ List.filter (fun n => n != o) t.currentOverlays := hmem2
      have hfo := (List.mem_filter.mp hmem3).2
      rw [bne_self_eq_false] at hfo
      exact Bool.noConfusion hfo
    · intro ovt hovt
      refine ⟨{ ovt with visible := false }, ?_, rfl⟩
      show alookup o (updOverlay (popOverlay t o) o fun w => { w with visible := false }).overlays = some { ovt with visible := false }
      rw [alookup_updOverlay, if_pos rfl]
      rw [show (popOverlay t o).overlays = t.overlays from rfl, hovt, Option.map_some']
  · intro t c2 o2 hinst2 hgct2
    rw [cueExit_eq_overlay t c2 o2 hgct2, hinst2]
    rw [if_neg (show ¬ (!true) = true from by decide)]

/-- Claim C5 witness: the amended behavior at the concrete spanning cue
targeting overlay O from playing video A. -/
theorem claim_C5_witness :
    wState.currentVideo = some "A" ∧ alookup "A" wState.videos = some wVideoA ∧
    alookup "O" wState.overlays = some wOverlayO ∧ wCueSpan.text = "O" ∧
    getComponent wState "O" = some (Component.overlay "O") ∧
    (' ' ∉ ("O" : String).data) ∧ jsEqb wCueSpan.startTime wCueSpan.endTime = false ∧
    (∃ s2, cueEnter wState wCueSpan = some s2 ∧ "O" ∈ s2.currentOverlays ∧
      (alookup "A" s2.videos).map VideoState.paused = some wVideoA.paused) :=
  ⟨by decide, by decide, by decide, by decide, by decide, by decide, by decide,
    (claim_C5_dynamic_overlay wState "A" "O" wCueSpan wVideoA wOverlayO
      (by decide) (by decide) (by decide) (by decide) (by decide) (by decide) (by decide)).1⟩

/-- Claim C8 counterexample: entering the spanning overlay cue leaves the
source video's displayed time at its previous value 7 rather than
resetting it to the cue start time 20, so the reset does not happen for
every dispatched cue. -/
theorem claim_C8_counterexample :
    (cueEnter wState wCueSpan).map (fun s2 => (alookup "A" s2.videos).map VideoState.displayTime)
      = some (some (JsNum.num 7)) ∧
    wCueSpan.sourceVideo = "A" ∧ wCueSpan.startTime = JsNum.num 20 ∧
    ¬ (JsNum.num 7) = JsNum.num 20 := by
  exact ⟨by decide, rfl, rfl, by decide⟩

/-- Claim C8 as amended: the enter handler resets the source video's
presented current-time to the cue start exactly when the directive
targets a Video or the cue is instantaneous with an Overlay target; for a
spanning Overlay cue the source display time is untouched. -/
theorem claim_C8_presented_time_reset (s : LectureState) (c : Cue) (cv tv tov : String)
    (hcw : s.currentVideo = some cv) :
    (getComponent s (resolveDirective c.text).targetName = some (Component.video tv) →
      ∃ s2, cueEnter s c = some s2 ∧
        ∀ u, alookup c.sourceVideo s2.videos = some u →
          u.displayTime = c.startTime ∧ u.propTime = c.startTime) ∧
    (getComponent s (resolveDirective c.text).targetName = some (Component.overlay tov) →
      jsEqb c.startTime c.endTime = true →
      ∃ s2, cueEnter s c = some s2 ∧
        ∀ u, alookup c.sourceVideo s2.videos = some u →
          u.displayTime = c.startTime ∧ u.propTime = c.startTime) ∧
    (getComponent s (resolveDirective c.text).targetName = some (Component.overlay tov) →
      jsEqb c.startTime c.endTime = false →
      ∃ s2, cueEnter s c = some s2 ∧
        (alookup c.sourceVideo s2.videos).map VideoState.displayTime
          = (alookup c.sourceVideo s.videos).map VideoState.displayTime) := by
  refine ⟨?_, ?_, ?_⟩
  · intro hgc
    rw [cueEnter_eq_video s c tv hgc]
    refine ⟨_, rfl, ?_⟩
    intro u hu
    rw [alookup_updVideo, if_pos rfl, Option.map_eq_some'] at hu
    obtain ⟨w, hw, hfw⟩ := hu
    rw [← hfw]
    exact ⟨rfl, rfl⟩
  · intro hgc hinst
    obtain ⟨s1, hshow, hmem1, hcur1, hpaused1, hdisp1, hovl1⟩ := overlayShow_char s tov cv hcw
    rw [cueEnter_eq_overlay s c tov s1 hgc hshow]
    simp only [hinst]
    rw [if_pos trivial]
    refine ⟨_, rfl, ?_⟩
    intro u hu
    rw [alookup_updVideo, if_pos rfl, Option.map_eq_some'] at hu
    obtain ⟨w, hw, hfw⟩ := hu
    rw [← hfw]
    exact ⟨rfl, rfl⟩
  · intro hgc hni
    obtain ⟨s1, hshow, hmem1, hcur1, hpaused1, hdisp1, hovl1⟩ := overlayShow_char s tov cv hcw
    rw [cueEnter_eq_overlay s c tov s1 hgc hshow]
    simp only [hni, Bool.false_eq_true, if_false]
    refine ⟨_, rfl, ?_⟩
    rw [videos_updOverlay, hdisp1 c.sourceVideo]

/-- Claim C8 witness: a Video-targeting cue does reset the source display
and property times to the cue start. -/
theorem claim_C8_witness :
    wState.currentVideo = some "A" ∧
    getComponent wState (resolveDirective ({ startTime := JsNum.num 20, endTime := JsNum.num 25, text := "B", sourceVideo := "A" } : Cue).text).targetName = some (Component.video "B") ∧
    (∃ s2, cueEnter wState { startTime := JsNum.num 20, endTime := JsNum.num 25, text := "B", sourceVideo := "A" } = some s2 ∧
      ∀ u, alookup "A" s2.videos = some u →
        u.displayTime = JsNum.num 20 ∧ u.propTime = JsNum.num 20) :=
  ⟨by decide, by decide,
    (claim_C8_presented_time_reset wState { startTime := JsNum.num 20, endTime := JsNum.num 25, text := "B", sourceVideo := "A" } "A" "B" "O" (by decide)).1 (by decide)⟩

/-- Claim C10: in the current revision an explicit transition time of 0 is
falsy, so doTransition falls back on the stored time and neither stores
nor seeks to 0, while the earlier revision preserves the explicit 0 and
seeks the element there; the two revisions disagree on the restart
idiom. -/
theorem claim_C10_zero_time_falsy (s : LectureState) (selfName v : String) (vs : VideoState)
    (s0 : State000) (v0s : Video000) (cq : ℚ)
    (hcw : s.currentVideo = some v) (hv : alookup v s.videos = some vs)
    (hst : vs.storedTime = JsNum.num cq) (hnz : ¬ cq = 0)
    (hcw0 : s0.currentVideo = some v) (hv0 : alookup v s0.videos = some v0s)
    (hp0 : v0s.paused = true) (hct0 : v0s.currentTime = JsNum.num cq) :
    (∃ s4, doTransition s selfName wDTOpts defaultOverlayTransition = some s4 ∧
      (alookup v s4.videos).map VideoState.storedTime = some (JsNum.num cq) ∧
      (alookup v s4.videos).map VideoState.elemTime
        = (alookup v s.videos).map VideoState.elemTime) ∧
    (∃ t4, doTransition000 s0 selfName wDT000Opts = some t4 ∧
      (alookup v t4.videos).map Video000.currentTime = some (JsNum.num 0) ∧
      (alookup v t4.videos).map Video000.elemTime = some (JsNum.num 0)) ∧
    ¬ JsNum.num (0 : ℚ) = JsNum.num cq := by
  refine ⟨?_, ?_, ?_⟩
  · have htgt : (if truthyOptStr (mergeDT wDTOpts defaultOverlayTransition).target then (mergeDT wDTOpts defaultOverlayTransition).target else s.currentVideo) = some v := hcw
    have hgc : getComponent s v = some (Component.video v) := by simp [getComponent, hv]
    rw [doTransition_eq s selfName wDTOpts defaultOverlayTransition v vs htgt hgc hv]
    simp only [show truthyOptNum (mergeDT wDTOpts defaultOverlayTransition).time = false from by decide,
      show truthyOptBool (mergeDT wDTOpts defaultOverlayTransition).hide = true from by decide,
      show truthyOptBool (mergeDT wDTOpts defaultOverlayTransition).stop = false from by decide,
      Bool.false_eq_true, if_false, if_true, hst, hcw, videoShow_noop s v hcw, jsEqb,
      beq_self_eq_true, Bool.and_self]
    obtain ⟨t3, hOH, hc3, hstored3, helem3, hpaused3⟩ :=
      overlayHide_maps (updVideo s v fun u => { u with storedTime := JsNum.num cq }) selfName v
        (by rw [currentVideo_updVideo]; exact hcw)
    rw [hOH]
    refine ⟨_, rfl, ?_, ?_⟩
    · rw [videoPlay_true_maps t3 v VideoState.storedTime hc3 (fun u => rfl) v, hstored3 v]
      rw [alookup_updVideo, if_pos rfl, hv, Option.map_some', Option.map_some']
    · rw [videoPlay_true_maps t3 v VideoState.elemTime hc3 (fun u => rfl) v, helem3 v]
      exact alookup_map_field_updVideo s v v _ VideoState.elemTime fun u => rfl
  · have hgc0 : getComponent000 s0 v = some (Component.video v) := by
      simp [getComponent000, hv0]
    rw [doTransition000_eq s0 selfName wDT000Opts v v v0s v0s hcw0 hgc0 hv0 hv0]
    have hne : ((0 : ℚ) == cq) = false := beq_eq_false_iff_ne.mpr fun h => hnz h.symm
    simp only [videoShow000_noop s0 v hcw0, hct0,
      show ∀ x, wDT000Opts.time.getD x = JsNum.num 0 from fun x => rfl,
      show wDT000Opts.hide.getD true = true from rfl,
      show wDT000Opts.stop.getD false = false from rfl,
      Bool.false_eq_true, if_false, if_true, jsEqb, decide_True, hne, Bool.true_and]
    have hBv : alookup v (overlayHide000 (updVideo000 s0 v fun u => { u with currentTime := JsNum.num 0 }) selfName).videos = some { v0s with currentTime := JsNum.num 0 } := by
      rw [videos_overlayHide000, alookup_updVideo000, if_pos rfl, hv0, Option.map_some']
    have hBc : (overlayHide000 (updVideo000 s0 v fun u => { u with currentTime := JsNum.num 0 }) selfName).currentVideo = some v := by
      rw [currentVideo_overlayHide000]
      exact hcw0
    refine ⟨_, rfl, ?_, ?_⟩
    · rw [videoPlay000_eq _ v false _ hBc hBv]
      rw [if_pos (show ({ v0s with currentTime := JsNum.num 0 } : Video000).paused = true from hp0)]
      rw [if_pos (show (!false) = true from rfl)]
      rw [alookup_updVideo000, if_pos rfl, alookup_updVideo000, if_pos rfl, hBv]
      rw [Option.map_some', Option.map_some', Option.map_some']
    · rw [videoPlay000_eq _ v false _ hBc hBv]
      rw [if_pos (show ({ v0s with currentTime := JsNum.num 0 } : Video000).paused = true from hp0)]
      rw [if_pos (show (!false) = true from rfl)]
      rw [alookup_updVideo000, if_pos rfl, alookup_updVideo000, if_pos rfl, hBv]
      rw [Option.map_some', Option.map_some', Option.map_some']
  · intro h
    injection h with h2
    exact hnz h2.symm

/-- Claim C10 witness: the restart idiom at the concrete paused registry
keeps the stored time 30 and the element position in the current
revision. -/
theorem claim_C10_witness :
    wStateDT.currentVideo = some "A" ∧ wState000.currentVideo = some "A" ∧
    (∃ s4, doTransition wStateDT "O" wDTOpts defaultOverlayTransition = some s4 ∧
      (alookup "A" s4.videos).map VideoState.storedTime = some (JsNum.num 30) ∧
      (alookup "A" s4.videos).map VideoState.elemTime
        = (alookup "A" wStateDT.videos).map VideoState.elemTime) :=
  ⟨by decide, by decide,
    (claim_C10_zero_time_falsy wStateDT "O" "A" { wVideoA with paused := true, storedTime := JsNum.num 30 } wState000 { paused := true, elemTime := JsNum.num 21, currentTime := JsNum.num 30, visible := true } 30
      (by decide) (by decide) (by decide) (by decide) (by decide) (by decide) (by decide) (by decide)).1⟩

end LectureJs
